import Mathlib

/-!
# AIRSPACE compression core: shallow embedding and verification

A shallow embedding of the AIRSPACE compression core (`src/lib`), translated
from the C sources:

* `src/lib/common/bitstream_writer.h` — big-endian MSB-first bitstream writer
* `src/lib/common/header.c` / `header.h` — frame header codec
* `src/lib/compress/encoder.c` / `encoder.h` — entropy encoder (Golomb codes)
* `src/lib/compress/preprocess.c` — preprocessing (NONE, DIFF, IWT, MODEL)
* `src/lib/compress/cmp.c` — compression context and per-pass algorithm
* `src/lib/decompress/decmp.c` — DIFF inverse (prefix sum)

Machine integers are modelled as `Nat` with explicit `% 2^w` where overflow
matters; `int16` values are modelled as `Int` in `[-32768, 32767]`.  Byte
buffers are `List Nat` (each element `< 256`); sample buffers are `List Nat`
(each element a 16-bit pattern `< 65536`).  Pointers have no model: a NULL
work buffer is represented by `Option`, and NULL/alignment checks on `dst`
(which cannot be expressed without a memory model) are omitted.

A few helpers referenced by the C sources are missing from the tree
(`cmp_is_error_int`, `bitstream_write32/64`, `cmp_encoder_finish`, the
`CMP_ERR_TIMESTAMP_INVALID` enum value); they are modelled from the
specification and are marked as such in their doc comments.
-/

/-! ## Error codes (`src/lib/cmp_errors.h`, `src/lib/common/err_private.h`)

`CMP_ERROR(name)` is `(uint32_t)-CMP_ERR_name`, i.e. `2^32 - code`.
-/

/-- `CMP_ERROR(name)` from `err_private.h`: negated error code in `uint32`. -/
def CMP_ERROR (code : Nat) : Nat := (4294967296 - code) % 4294967296

def errGENERIC : Nat := CMP_ERROR 1
def errPARAMS_INVALID : Nat := CMP_ERROR 10
def errDST_TOO_SMALL : Nat := CMP_ERROR 30
def errDST_NULL : Nat := CMP_ERROR 31
def errDST_UNALIGNED : Nat := CMP_ERROR 32
def errSRC_SIZE_WRONG : Nat := CMP_ERROR 40
def errSRC_NULL : Nat := CMP_ERROR 41
def errSRC_SIZE_MISMATCH : Nat := CMP_ERROR 42
def errWORK_BUF_TOO_SMALL : Nat := CMP_ERROR 50
def errWORK_BUF_NULL : Nat := CMP_ERROR 51
def errWORK_BUF_UNALIGNED : Nat := CMP_ERROR 52
def errHDR_CMP_SIZE_TOO_LARGE : Nat := CMP_ERROR 60
def errHDR_ORIGINAL_TOO_LARGE : Nat := CMP_ERROR 61
def errCONTEXT_INVALID : Nat := CMP_ERROR 70
def errINT_HDR : Nat := CMP_ERROR 100
def errINT_ENCODER : Nat := CMP_ERROR 101
def errINT_BITSTREAM : Nat := CMP_ERROR 102
def errNO_ERROR : Nat := CMP_ERROR 0

/-- Modelled from the spec: `CMP_ERR_TIMESTAMP_INVALID` is used by
`cmp_reset` and `cmp_hdr_serialize` but its numeric value is missing from
`cmp_errors.h`; any value in the sentinel range `(CMP_ERR_MAX_CODE, 0)`
works, we pick 71 (next free slot after `CMP_ERR_CONTEXT_INVALID`). -/
def errTIMESTAMP_INVALID : Nat := CMP_ERROR 71

/-- Modelled from the spec: `cmp_is_error_int` is used throughout the sources
but defined nowhere in the tree.  Per the spec failure-semantics section,
`is_error(code) ⇔ code > (uint32)-CMP_ERR_MAX_CODE` with
`CMP_ERR_MAX_CODE = 128`. -/
def cmp_is_error_int (code : Nat) : Bool := 4294967296 - 128 < code

/-! ## Bitstream writer (`src/lib/common/bitstream_writer.h`)

The C structure holds `cache` (u64), `bit_cap`, `start`, `ptr`, `end` and a
sticky `error`.  Pointers are modelled by the byte buffer `mem` (length =
buffer capacity), the write position `pos` (= `ptr - start`) and `capacity`
(= `end - start`).
-/

structure BitstreamWriter where
  cache : Nat
  bit_cap : Nat
  mem : List Nat
  pos : Nat
  capacity : Nat
  error : Nat
deriving DecidableEq

/-- Overwrite `bytes` into `mem` starting at position `pos`. -/
def storeBytes (mem : List Nat) (pos : Nat) (bytes : List Nat) : List Nat :=
  mem.take pos ++ bytes ++ mem.drop (pos + bytes.length)

/-- `put_be64`: store a 64-bit integer as 8 big-endian bytes at `pos`. -/
def put_be64 (mem : List Nat) (pos : Nat) (val : Nat) : List Nat :=
  storeBytes mem pos
    [val >>> 56 % 256, val >>> 48 % 256, val >>> 40 % 256, val >>> 32 % 256,
     val >>> 24 % 256, val >>> 16 % 256, val >>> 8 % 256, val % 256]

/-- `bitstream_writer_init` over an existing buffer.  The C function also
rejects NULL / misaligned `dst` pointers, which have no model here. -/
def bitstream_writer_init (mem : List Nat) (size : Nat) : BitstreamWriter :=
  { cache := 0, bit_cap := 64, mem := mem, pos := 0, capacity := size, error := errNO_ERROR }

/-- `bitstream_error`: current sticky error status. -/
def bitstream_error (bs : BitstreamWriter) : Nat := bs.error

/-- `bitstream_add_bits32`: append up to 32 bits to the stream. -/
def bitstream_add_bits32 (bs : BitstreamWriter) (value nb_bits : Nat) : BitstreamWriter :=
  if cmp_is_error_int (bitstream_error bs) then bs
  else if 32 < nb_bits then { bs with error := errINT_BITSTREAM }
  else if nb_bits < 32 ∧ value >>> nb_bits ≠ 0 then { bs with error := errINT_BITSTREAM }
  else if nb_bits < bs.bit_cap then
    { bs with cache := (bs.cache <<< nb_bits ||| value) % 18446744073709551616,
              bit_cap := bs.bit_cap - nb_bits }
  else if bs.pos + 8 ≤ bs.capacity then
    let full := ((bs.cache <<< bs.bit_cap) % 18446744073709551616) ||| (value >>> (nb_bits - bs.bit_cap))
    { bs with mem := put_be64 bs.mem bs.pos full, pos := bs.pos + 8,
              cache := value, bit_cap := bs.bit_cap + 64 - nb_bits }
  else { bs with error := errDST_TOO_SMALL }

/-- `bitstream_add_bits64`: split into two 32-bit writes. -/
def bitstream_add_bits64 (bs : BitstreamWriter) (value nb_bits : Nat) : BitstreamWriter :=
  if nb_bits ≤ 32 then bitstream_add_bits32 bs (value % 4294967296) nb_bits
  else bitstream_add_bits32 (bitstream_add_bits32 bs (value >>> 32) (nb_bits - 32))
         (value % 4294967296) 32

/-- Inner loop of `bitstream_flush`: write `n` pending bytes of `tmp`
starting at `pos`; `none` models the `DST_TOO_SMALL` exit. -/
def flushLoop (mem : List Nat) (cap pos tmp : Nat) : Nat → Option (List Nat)
  | 0 => some mem
  | n + 1 =>
      if pos < cap then
        flushLoop (storeBytes mem pos [tmp >>> 56 % 256]) cap (pos + 1)
          ((tmp <<< 8) % 18446744073709551616) n
      else none

/-- `bitstream_flush`: emit the partial cache; returns total bytes written
from the start of the buffer, or the sticky error. -/
def bitstream_flush (bs : BitstreamWriter) : Nat × BitstreamWriter :=
  if cmp_is_error_int (bitstream_error bs) then (bitstream_error bs, bs)
  else
    let n := (64 - bs.bit_cap + 7) / 8
    match flushLoop bs.mem bs.capacity bs.pos ((bs.cache <<< bs.bit_cap) % 18446744073709551616) n with
    | none => (errDST_TOO_SMALL, { bs with error := errDST_TOO_SMALL })
    | some mem' => (bs.pos + n, { bs with mem := mem' })

/-- `bitstream_size`: bytes effectively written, cached bits included. -/
def bitstream_size (bs : BitstreamWriter) : Nat :=
  if cmp_is_error_int (bitstream_error bs) then bitstream_error bs
  else bs.pos + (64 - bs.bit_cap + 7) / 8

/-- `bitstream_rewind`: flush, then re-initialise the writer on the same
buffer (used for the header back-patch). -/
def bitstream_rewind (bs : BitstreamWriter) : Nat × BitstreamWriter :=
  let fl := bitstream_flush bs
  if cmp_is_error_int fl.1 then (fl.1, fl.2)
  else (errNO_ERROR, bitstream_writer_init fl.2.mem fl.2.capacity)

/-- Modelled from the spec: `bitstream_write32` is called by `encoder.c` but
missing from the tree; per spec §4.B it appends the bits and reports the
sticky error status. -/
def bitstream_write32 (bs : BitstreamWriter) (value nb_bits : Nat) : Nat × BitstreamWriter :=
  let bs' := bitstream_add_bits32 bs value nb_bits
  (bitstream_error bs', bs')

/-- Modelled from the spec: `bitstream_write64`, as `bitstream_write32` but
splitting 64-bit values. -/
def bitstream_write64 (bs : BitstreamWriter) (value nb_bits : Nat) : Nat × BitstreamWriter :=
  let bs' := bitstream_add_bits64 bs value nb_bits
  (bitstream_error bs', bs')

/-! ## Frame header codec (`src/lib/common/header.h`, `header.c`)

`CMP_HDR_SIZE = (16+24+24+48+8+8)/8 = 16` bytes; `CMP_EXT_HDR_SIZE =
(8+16+24)/8 = 6` bytes.
-/

def CMP_HDR_SIZE : Nat := (1 + 15 + 24 + 24 + 48 + 8 + 4 + 1 + 3) / 8
def CMP_EXT_HDR_SIZE : Nat := (8 + 16 + 24) / 8
def CMP_HDR_MAX_SIZE : Nat := CMP_HDR_SIZE + CMP_EXT_HDR_SIZE
def CMP_HDR_MAX_COMPRESSED_SIZE : Nat := 2 ^ 24 - 1
def CMP_HDR_MAX_ORIGINAL_SIZE : Nat := 2 ^ 24 - 1

/-- `struct cmp_hdr` (`header.h`). -/
structure CmpHdr where
  version_flag : Nat
  version_id : Nat
  compressed_size : Nat
  original_size : Nat
  identifier : Nat
  sequence_number : Nat
  preprocessing : Nat
  checksum_enabled : Nat
  encoder_type : Nat
  model_rate : Nat
  encoder_param : Nat
  encoder_outlier : Nat
deriving DecidableEq

def zeroHdr : CmpHdr := ⟨0, 0, 0, 0, 0, 0, 0, 0, 0, 0, 0, 0⟩

/-- The `(value, bit-width)` pairs written by `cmp_hdr_serialize`, in order.
The extended header fields are present iff the preprocessing is not NONE or
the encoder is not UNCOMPRESSED. -/
def hdrWrites (hdr : CmpHdr) : List (Nat × Nat) :=
  [(hdr.version_flag, 1), (hdr.version_id, 15),
   (hdr.compressed_size, 24), (hdr.original_size, 24),
   (hdr.identifier, 48), (hdr.sequence_number, 8),
   (hdr.preprocessing, 4), (hdr.checksum_enabled, 1), (hdr.encoder_type, 3)]
  ++ (if hdr.preprocessing ≠ 0 ∨ hdr.encoder_type ≠ 0 then
       [(hdr.model_rate, 8), (hdr.encoder_param, 16), (hdr.encoder_outlier, 24)]
      else [])

/-- `cmp_hdr_serialize` (`header.c`): range checks, then the field writes of
`hdrWrites` through `bitstream_write64` (the per-write early error returns of
the C macro collapse to a final check by the sticky-error semantics), then a
flush; returns the byte count `end_size - start_size`. -/
def cmp_hdr_serialize (bs : BitstreamWriter) (hdr : CmpHdr) : Nat × BitstreamWriter :=
  if CMP_HDR_MAX_COMPRESSED_SIZE < hdr.compressed_size then (errHDR_CMP_SIZE_TOO_LARGE, bs)
  else if CMP_HDR_MAX_ORIGINAL_SIZE < hdr.original_size then (errHDR_ORIGINAL_TOO_LARGE, bs)
  else if 2 ^ 48 - 1 < hdr.identifier then (errTIMESTAMP_INVALID, bs)
  else
    let start_size := bitstream_size bs
    if cmp_is_error_int start_size then (start_size, bs)
    else
      let bs1 := (hdrWrites hdr).foldl (fun b w => bitstream_add_bits64 b w.1 w.2) bs
      let fl := bitstream_flush bs1
      if cmp_is_error_int fl.1 then (fl.1, fl.2)
      else (fl.1 - start_size, fl.2)

/-! ## Entropy encoder (`src/lib/compress/encoder.c`, `encoder.h`) -/

def CMP_MIN_GOLOMB_PAR : Nat := 1
def CMP_MAX_GOLOMB_PAR : Nat := 65535
def CMP_NUM_BITS_PER_SAMPLE : Nat := 16
def CMP_GOLOMB_MAX_CODEWORD_BITS : Nat := 32
def CMP_MAX_BITS_PER_SAMPLE : Nat := CMP_GOLOMB_MAX_CODEWORD_BITS + CMP_NUM_BITS_PER_SAMPLE

/-- Halving loop computing `floor(log2 x)`; the fuel (32) covers `uint32`. -/
def ilog2Loop (x : Nat) : Nat → Nat
  | 0 => 0
  | fuel + 1 => if x ≤ 1 then 0 else ilog2Loop (x / 2) fuel + 1

/-- `ilog2`: `floor(log2 x)`, `UINT_MAX` for 0 (clz-based in C). -/
def ilog2 (x : Nat) : Nat := if x = 0 then 4294967295 else ilog2Loop x 32

/-- `DIV_ROUND_UP` from `bithacks.h`. -/
def DIV_ROUND_UP (n d : Nat) : Nat := (n + d - 1) / d

/-- `cmp_encoder_max_compressed_size` (`encoder.c`): worst-case byte count,
each sample as escape (max codeword + raw sample bits). -/
def cmp_encoder_max_compressed_size (size : Nat) : Nat :=
  let n_samples := DIV_ROUND_UP (size * 8) CMP_NUM_BITS_PER_SAMPLE
  DIV_ROUND_UP (n_samples * CMP_MAX_BITS_PER_SAMPLE) 8

/-- `golomb_upper_bound` (`encoder.c`): first value whose Golomb codeword
would exceed 32 bits (0 on failure).  For the multi-escape encoder the
reserved escape symbols `(n_bits+1)/2` are subtracted. -/
def golomb_upper_bound (g_par encoder_type n_bits : Nat) : Nat :=
  if g_par < CMP_MIN_GOLOMB_PAR ∨ CMP_MAX_GOLOMB_PAR < g_par then 0
  else if CMP_NUM_BITS_PER_SAMPLE < n_bits then 0
  else
    let cutoff := (2 <<< ilog2 g_par) - g_par
    let first_invalid_group := CMP_GOLOMB_MAX_CODEWORD_BITS + 1 - (ilog2 g_par + 2)
    let first_invalid_value := cutoff + first_invalid_group * g_par
    if encoder_type = 2 then
      let num_escape_symbols := (n_bits + 1) / 2
      if num_escape_symbols < first_invalid_value then first_invalid_value - num_escape_symbols
      else 0
    else first_invalid_value

/-- `golomb_optimal_outlier_zero` (`encoder.c`): lowest mapped value from
which the zero-escape encoding is shorter than the Golomb code. -/
def golomb_optimal_outlier_zero (g_par n_bits : Nat) : Nat :=
  if g_par < CMP_MIN_GOLOMB_PAR ∨ CMP_MAX_GOLOMB_PAR < g_par then 0
  else if n_bits < 1 ∨ CMP_GOLOMB_MAX_CODEWORD_BITS < n_bits then 0
  else
    let cutoff := (2 <<< ilog2 g_par) - g_par
    let outlier := cutoff + n_bits * g_par - 1
    if 4294967295 < outlier then 4294967295 else outlier

/-- `struct cmp_encoder` (`encoder.h`). -/
structure CmpEncoder where
  encoder_type : Nat
  g_par : Nat
  g_par_log2 : Nat
  outlier : Nat
deriving DecidableEq

def zeroEnc : CmpEncoder := ⟨0, 0, 0, 0⟩

/-- `cmp_encoder_init` (`encoder.c`): switch on the encoder type; for Golomb
types validate the parameter, derive (ZERO) or take (MULTI) the outlier and
cap it by `golomb_upper_bound`. -/
def cmp_encoder_init (encoder_type encoder_param outlier : Nat) : Nat × CmpEncoder :=
  if encoder_type = 0 then (errNO_ERROR, { zeroEnc with encoder_type := 0 })
  else if encoder_type = 1 ∨ encoder_type = 2 then
    if encoder_param < CMP_MIN_GOLOMB_PAR ∨ CMP_MAX_GOLOMB_PAR < encoder_param then
      (errPARAMS_INVALID, { zeroEnc with encoder_type := encoder_type })
    else
      let o1 := if encoder_type = 1 then
                  golomb_optimal_outlier_zero encoder_param CMP_NUM_BITS_PER_SAMPLE
                else outlier
      let o2 := min o1 (golomb_upper_bound encoder_param encoder_type CMP_NUM_BITS_PER_SAMPLE)
      if o2 = 0 then
        (errPARAMS_INVALID,
         { encoder_type := encoder_type, g_par := encoder_param,
           g_par_log2 := ilog2 encoder_param, outlier := o2 })
      else
        (errNO_ERROR,
         { encoder_type := encoder_type, g_par := encoder_param,
           g_par_log2 := ilog2 encoder_param, outlier := o2 })
  else (errPARAMS_INVALID, { zeroEnc with encoder_type := encoder_type })

/-- `cmp_encoder_params_check` (`encoder.c`): dry-run initialisation. -/
def cmp_encoder_params_check (encoder_type encoder_param outlier : Nat) : Nat :=
  (cmp_encoder_init encoder_type encoder_param outlier).1

/-- `sign_extend(value, 16)` (`encoder.c`): wrap an integer to the signed
16-bit range (the C shift pair on the `uint32` pattern reduces to this). -/
def sign_extend16 (value : Int) : Int :=
  let m := value % 65536
  if m < 32768 then m else m - 65536

/-- 32-bit two's-complement pattern of an integer. -/
def u32pat (v : Int) : Nat := (v % 4294967296).toNat

/-- `map_to_unsigned(value, 16)` (`encoder.c`): zig-zag mapping
`(value << 1) XOR (value >> 15)` on the sign-extended value, in `uint32`. -/
def map_to_unsigned16 (value : Int) : Nat :=
  let v := sign_extend16 value
  ((u32pat v <<< 1) % 4294967296) ^^^ u32pat (Int.fdiv v 32768)

/-- `golomb_encode` (`encoder.c`), codeword formation only: the
`(codeword, length)` pair passed to `bitstream_write32`. -/
def golomb_encode_cw (value g_par g_par_log2 : Nat) : Nat × Nat :=
  let cutoff := (2 <<< g_par_log2) - g_par
  if value < cutoff then (value, g_par_log2 + 1)
  else
    let group_num := (value - cutoff) / g_par
    let remainder := value - cutoff - group_num * g_par
    let unary_code := (1 <<< (group_num % 32)) - 1
    let len := g_par_log2 + 1
    let codeword := ((unary_code <<< ((len + 1) % 32)) % 4294967296
                      + (cutoff <<< 1) + remainder) % 4294967296
    (codeword, len + 1 + group_num)

/-- The `(value, bit-width)` pairs written to the bitstream by
`cmp_encoder_encode_s16` (`encoder.c`), in order: for the Golomb encoders a
codeword from `golomb_encode_cw`, followed in the escape cases by the raw
suffix bits. -/
def encodeWrites (enc : CmpEncoder) (value : Int) : List (Nat × Nat) :=
  if enc.encoder_type = 0 then
    [((value % 65536).toNat, 16)]
  else if enc.encoder_type = 1 then
    let mapped := map_to_unsigned16 value % 65536
    if mapped < enc.outlier then
      [golomb_encode_cw (mapped + 1) enc.g_par enc.g_par_log2]
    else
      [golomb_encode_cw 0 enc.g_par enc.g_par_log2, (mapped, 16)]
  else
    let mapped := map_to_unsigned16 value % 65536
    if mapped < enc.outlier then
      [golomb_encode_cw mapped enc.g_par enc.g_par_log2]
    else
      let diff := mapped - enc.outlier
      let level := if diff < 4 then 0 else ilog2 diff / 2
      [golomb_encode_cw (enc.outlier + level) enc.g_par enc.g_par_log2,
       (diff, (level + 1) * 2)]

/-- `cmp_encoder_encode_s16` (`encoder.c`): dispatch on the encoder type and
emit the writes of `encodeWrites` (the per-write early error returns collapse
to a final status read by the sticky-error semantics); unknown types yield
`PARAMS_INVALID`. -/
def cmp_encoder_encode_s16 (enc : CmpEncoder) (value : Int)
    (bs : BitstreamWriter) : Nat × BitstreamWriter :=
  if enc.encoder_type = 0 ∨ enc.encoder_type = 1 ∨ enc.encoder_type = 2 then
    let bs1 := (encodeWrites enc value).foldl (fun b w => bitstream_add_bits32 b w.1 w.2) bs
    (bitstream_error bs1, bs1)
  else (errPARAMS_INVALID, bs)

/-- Modelled from the spec: `cmp_encoder_finish` is called by
`cmp_compress_u16` but missing from the tree; per spec §4.E "Finalize:
compute total bytes written via `bitstream_size`". -/
def cmp_encoder_finish (bs : BitstreamWriter) : Nat := bitstream_size bs

/-! ## Preprocessing (`src/lib/compress/preprocess.h`, `preprocess.c`)

The work buffer is a caller-supplied `uint16` array, modelled as `List Nat`
of 16-bit patterns.  The C vtable (`struct preprocessing_method`) becomes a
structure of Lean functions; `process` additionally returns the (possibly
updated) work buffer, since `model_process` mutates it.  The global
`g_model_adaptation_rate` set by `model_init` is passed explicitly.
-/

/-- `ROUND_UP_TO_NEXT_2` (`preprocess.h`): `((n) + 1U) & ~1U`. -/
def ROUND_UP_TO_NEXT_2 (n : Nat) : Nat := ((n + 1) % 4294967296) &&& 4294967294

/-- Reinterpret a 16-bit pattern as a signed 16-bit value. -/
def u16ToI16 (x : Nat) : Int :=
  if x % 65536 < 32768 then (x % 65536 : Nat) else (x % 65536 : Nat) - 65536

/-- 16-bit pattern of an integer (the `(uint16_t)` / `(int16_t)` casts). -/
def u16pat (v : Int) : Nat := (v % 65536).toNat

/-- `none_init` (`preprocess.c`): source-size validation; the NULL-source
check has no model.  Returns the sample count. -/
def none_init (src_size : Nat) : Nat :=
  if src_size = 0 then errSRC_SIZE_WRONG
  else if src_size % 2 ≠ 0 then errSRC_SIZE_WRONG
  else src_size / 2

/-- `none_process`: `(int16_t)src[i]`. -/
def none_process (i : Nat) (src : List Nat) : Int := u16ToI16 (src.getD i 0)

/-- `diff_process` (`preprocess.c`): `(int16_t)src[0]` at index 0, else the
`uint16` wrap-around difference `(int16_t)(src[i] - src[i-1])`. -/
def diff_process (i : Nat) (src : List Nat) : Int :=
  if i = 0 then u16ToI16 (src.getD 0 0)
  else u16ToI16 ((src.getD i 0 % 65536 + 65536 - src.getD (i - 1) 0 % 65536) % 65536)

/-! ### Integer wavelet transform -/

/-- `floor_division_by_2`: arithmetic shift, floor division for negatives. -/
def floor_division_by_2 (dividend : Int) : Int := Int.fdiv dividend 2

/-- `floor_division_by_4`. -/
def floor_division_by_4 (dividend : Int) : Int := Int.fdiv dividend 4

/-- Wrap an integer to the signed 16-bit range (the implicit `int16_t`
conversion of the coefficient helpers' return values). -/
def wrap16 (v : Int) : Int :=
  let m := v % 65536
  if m < 32768 then m else m - 65536

def iwt_odd_coefficient (centre left right : Int) : Int :=
  wrap16 (centre - floor_division_by_2 (left + right))

def iwt_last_odd_coefficient (centre left : Int) : Int :=
  wrap16 (centre - left)

def iwt_even_coefficient (centre odd_coef_left odd_coef_right : Int) : Int :=
  wrap16 (centre + floor_division_by_4 (odd_coef_left + odd_coef_right))

def iwt_edge_even_coefficient (centre odd_coef_neighbour : Int) : Int :=
  wrap16 (centre + floor_division_by_2 odd_coef_neighbour)

/-- Read the coefficient array (0 when out of range, matching reads of
uninitialised memory only on ill-formed inputs). -/
def iwtGet (a : List Int) (i : Nat) : Int := a.getD i 0

/-- Middle loop of `iwt_single_level_i16`: `for (i = 2s; i < n - 2s; i += 2s)`.
The writes to `y` are sequential; since each iteration reads positions not
yet overwritten in this level, the aliased (`x == y`) and non-aliased calls
coincide and a single array models both.  Returns the array and the final
value of `i`.  The fuel argument (instantiated with `n`) only serves
termination; the loop exits on its own condition first. -/
def iwtMiddleLoop (a : List Int) (n s i : Nat) : Nat → List Int × Nat
  | 0 => (a, i)
  | fuel + 1 =>
      if i < n - 2 * s then
        let a1 := a.set (i + s) (iwt_odd_coefficient (iwtGet a (i + s)) (iwtGet a i) (iwtGet a (i + 2 * s)))
        let a2 := a1.set i (iwt_even_coefficient (iwtGet a1 i) (iwtGet a1 (i - s)) (iwtGet a1 (i + s)))
        iwtMiddleLoop a2 n s (i + 2 * s) fuel
      else (a, i)

/-- `iwt_single_level_i16` (`preprocess.c`): one lifting level at stride `s`. -/
def iwt_single_level_i16 (a : List Int) (n s : Nat) : List Int :=
  if n ≤ 2 * s then
    if n ≤ s then a.set 0 (iwtGet a 0)
    else
      let a1 := a.set s (iwt_last_odd_coefficient (iwtGet a s) (iwtGet a 0))
      a1.set 0 (iwt_edge_even_coefficient (iwtGet a1 0) (iwtGet a1 s))
  else
    let a1 := a.set s (iwt_odd_coefficient (iwtGet a s) (iwtGet a 0) (iwtGet a (2 * s)))
    let a2 := a1.set 0 (iwt_edge_even_coefficient (iwtGet a1 0) (iwtGet a1 s))
    let r := iwtMiddleLoop a2 n s (2 * s) n
    let a3 := r.1
    let i := r.2
    if i = n - 2 * s then
      let a4 := a3.set (i + s) (iwt_last_odd_coefficient (iwtGet a3 (i + s)) (iwtGet a3 i))
      a4.set i (iwt_even_coefficient (iwtGet a4 i) (iwtGet a4 (i - s)) (iwtGet a4 (i + s)))
    else a3.set i (iwt_edge_even_coefficient (iwtGet a3 i) (iwtGet a3 (i - s)))

/-- Stride loop of `iwt_multi_level_decomposition_i16`:
`for (stride = 1; stride < num_samples; stride <<= 1)`.  Fuel (instantiated
with `n`) dominates the `log2 n + 1` iterations. -/
def iwtStrides (a : List Int) (n s : Nat) : Nat → List Int
  | 0 => a
  | fuel + 1 =>
      if s < n then iwtStrides (iwt_single_level_i16 a n s) n (2 * s) fuel
      else a

/-- `iwt_multi_level_decomposition_i16` (`preprocess.c`). -/
def iwt_multi_level_decomposition_i16 (input : List Int) (num_samples : Nat) : List Int :=
  if num_samples = 1 then input.set 0 (iwtGet input 0)
  else iwtStrides input num_samples 1 num_samples

/-- `iwt_get_work_buf_size` = `model_get_work_buf_size` (`preprocess.c`). -/
def iwt_get_work_buf_size (input_size : Nat) : Nat := ROUND_UP_TO_NEXT_2 input_size

/-- `iwt_init` (`preprocess.c`): validate, then pre-compute the multi-level
decomposition of the source (read as `int16`) into the work buffer.
Returns the sample count (or an error) and the updated work buffer. -/
def iwt_init (src : List Nat) (src_size : Nat) (work_buf : List Nat)
    (work_buf_size : Nat) : Nat × List Nat :=
  let num_samples := none_init src_size
  if cmp_is_error_int num_samples then (num_samples, work_buf)
  else if work_buf = [] then (errWORK_BUF_NULL, work_buf)
  else if work_buf_size < iwt_get_work_buf_size src_size then (errWORK_BUF_TOO_SMALL, work_buf)
  else
    let input := (src.take num_samples).map u16ToI16
    let coeffs := iwt_multi_level_decomposition_i16 input num_samples
    (num_samples, coeffs.map u16pat ++ work_buf.drop num_samples)

/-- `iwt_process`: return the pre-computed coefficient. -/
def iwt_process (i : Nat) (work_buf : List Nat) : Int := u16ToI16 (work_buf.getD i 0)

/-! ### Model preprocessing -/

/-- `cmp_up_model16` (`preprocess.c`) = `update_model` (`cmp.c`): blend of
the current model and the new data, truncating division by 16.  The
`model_rate ≤ 16` precondition is enforced by `cmp_initialise`. -/
def cmp_up_model16 (data model model_rate : Nat) : Nat :=
  ((model % 65536) * model_rate + (data % 65536) * (16 - model_rate)) / 16 % 65536

/-- `model_init` (`preprocess.c`): validations (the stored adaptation rate
global is threaded explicitly to `model_process`). -/
def model_init (src_size : Nat) (work_buf : List Nat) (work_buf_size : Nat)
    (model_rate : Nat) : Nat × List Nat :=
  let num_samples := none_init src_size
  if cmp_is_error_int num_samples then (num_samples, work_buf)
  else if work_buf = [] then (errWORK_BUF_NULL, work_buf)
  else if work_buf_size < iwt_get_work_buf_size src_size then (errWORK_BUF_TOO_SMALL, work_buf)
  else if 16 < model_rate then (errPARAMS_INVALID, work_buf)
  else (num_samples, work_buf)

/-- `model_process` (`preprocess.c`): residual `(int16_t)(src[i] - model[i])`,
then one application of the blending rule to `model[i]`. -/
def model_process (i : Nat) (src : List Nat) (work_buf : List Nat)
    (model_rate : Nat) : Int × List Nat :=
  let diff := u16ToI16 ((src.getD i 0 % 65536 + 65536 - work_buf.getD i 0 % 65536) % 65536)
  (diff, work_buf.set i (cmp_up_model16 (src.getD i 0) (work_buf.getD i 0) model_rate))

/-! ### Method dispatch (`preprocessing_get_method`) -/

/-- `struct preprocessing_method` (`preprocess.h`): `init` takes the source,
sizes, work buffer and the optional argument (the model adaptation rate) and
returns the sample count (or error) with the possibly rewritten work buffer;
`process` returns the residual and the possibly updated work buffer. -/
structure PreprocessingMethod where
  get_work_buf_size : Nat → Nat
  init : List Nat → Nat → List Nat → Nat → Nat → Nat × List Nat
  process : Nat → List Nat → List Nat → Nat → Int × List Nat

/-- `preprocessing_get_method` (`preprocess.c`). -/
def preprocessing_get_method (t : Nat) : Option PreprocessingMethod :=
  if t = 0 then
    some ⟨fun _ => 0, fun _ src_size w _ _ => (none_init src_size, w),
          fun i src w _ => (none_process i src, w)⟩
  else if t = 1 then
    some ⟨fun _ => 0, fun _ src_size w _ _ => (none_init src_size, w),
          fun i src w _ => (diff_process i src, w)⟩
  else if t = 2 then
    some ⟨iwt_get_work_buf_size,
          fun src src_size w wsize _ => iwt_init src src_size w wsize,
          fun i _ w _ => (iwt_process i w, w)⟩
  else if t = 3 then
    some ⟨iwt_get_work_buf_size,
          fun _ src_size w wsize rate => model_init src_size w wsize rate,
          fun i src w rate => model_process i src w rate⟩
  else none

/-! ## Compression context (`src/lib/cmp.h`, `src/lib/compress/cmp.c`)

The process-wide timestamp provider becomes an explicit `ts` argument: the
value the provider returns at the (single) point the operation samples it.
-/

def CMP_VERSION_NUMBER : Nat := 0 * 100 * 100 + 4 * 100 + 0
def CMP_MAX_MODEL_RATE : Nat := 16
def CMP_PREPROCESS_NONE : Nat := 0
def CMP_PREPROCESS_DIFF : Nat := 1
def CMP_PREPROCESS_IWT : Nat := 2
def CMP_PREPROCESS_MODEL : Nat := 3
def CMP_ENCODER_UNCOMPRESSED : Nat := 0
def CMP_ENCODER_GOLOMB_ZERO : Nat := 1
def CMP_ENCODER_GOLOMB_MULTI : Nat := 2

/-- `struct cmp_params` (`cmp.h`). -/
structure CmpParams where
  primary_preprocessing : Nat
  primary_encoder_type : Nat
  primary_encoder_param : Nat
  primary_encoder_outlier : Nat
  secondary_iterations : Nat
  secondary_preprocessing : Nat
  secondary_encoder_type : Nat
  secondary_encoder_param : Nat
  secondary_encoder_outlier : Nat
  model_rate : Nat
  checksum_enabled : Nat
  uncompressed_fallback_enabled : Nat
deriving DecidableEq

def zeroParams : CmpParams := ⟨0, 0, 0, 0, 0, 0, 0, 0, 0, 0, 0, 0⟩

/-- `struct cmp_context` (`cmp.h`).  The caller-owned work buffer the context
points to is carried by value. -/
structure CmpContext where
  magic : Nat
  params : CmpParams
  work_buf : List Nat
  work_buf_size : Nat
  model_size : Nat
  identifier : Nat
  sequence_number : Nat
deriving DecidableEq

/-- The all-zero context produced by `cmp_deinitialise` (`memset` to 0; the
NULL work-buffer pointer is the empty list). -/
def zeroCtx : CmpContext := ⟨0, zeroParams, [], 0, 0, 0, 0⟩

/-- `cmp_deinitialise` (`cmp.c`): zero the context. -/
def cmp_deinitialise (_ctx : CmpContext) : CmpContext := zeroCtx

/-- `cmp_compress_bound` (`cmp.c`): `CMP_HDR_SIZE + ROUND_UP_TO_NEXT_2(n)` in
`uint32`, with the overflow and 24-bit-field checks. -/
def cmp_compress_bound (src_size : Nat) : Nat :=
  let bound := (CMP_HDR_SIZE + ROUND_UP_TO_NEXT_2 src_size) % 4294967296
  if bound ≤ src_size then errSRC_SIZE_WRONG
  else if 2 ^ 24 ≤ bound then errSRC_SIZE_WRONG
  else bound

/-- `cmp_cal_work_buf_size` (`cmp.c`): maximum of the primary and (when
secondary iterations are enabled) secondary work-buffer sizes. -/
def cmp_cal_work_buf_size (params : CmpParams) (src_size : Nat) : Nat :=
  if params.primary_preprocessing = CMP_PREPROCESS_MODEL then errPARAMS_INVALID
  else
    match preprocessing_get_method params.primary_preprocessing with
    | none => errPARAMS_INVALID
    | some m =>
        let primary_work_buf_size := m.get_work_buf_size src_size
        if params.secondary_iterations ≠ 0 then
          match preprocessing_get_method params.secondary_preprocessing with
          | none => errPARAMS_INVALID
          | some m2 => max primary_work_buf_size (m2.get_work_buf_size src_size)
        else max primary_work_buf_size 0

/-- `cmp_reset` (`cmp.c`): zero the pass counter and model size, refresh the
identifier from the timestamp provider (explicit `ts`). -/
def cmp_reset (ctx : CmpContext) (ts : Nat) : Nat × CmpContext :=
  if 2 ^ 48 - 1 < ts then (errTIMESTAMP_INVALID, ctx)
  else (errNO_ERROR, { ctx with sequence_number := 0, identifier := ts, model_size := 0 })

/-- `cmp_initialise` (`cmp.c`): deinitialise, then validate everything;
parameters, work buffer and identifier are installed only after all checks
pass.  `work_buf = none` models a NULL work-buffer pointer. -/
def cmp_initialise (_ctx : CmpContext) (params : CmpParams)
    (work_buf : Option (List Nat)) (work_buf_size : Nat) (ts : Nat) : Nat × CmpContext :=
  let ctx := zeroCtx
  let min_src_size := 2
  let work_buf_needed := cmp_cal_work_buf_size params min_src_size
  if cmp_is_error_int work_buf_needed then (work_buf_needed, ctx)
  else if work_buf_needed ≠ 0 ∧ work_buf = none then (errWORK_BUF_NULL, ctx)
  else if work_buf_needed ≠ 0 ∧ work_buf_size = 0 then (errWORK_BUF_TOO_SMALL, ctx)
  else if CMP_MAX_MODEL_RATE < params.model_rate ∧
          params.secondary_preprocessing = CMP_PREPROCESS_MODEL then
    (errPARAMS_INVALID, ctx)
  else if 2 ^ 8 ≤ params.secondary_iterations then (errPARAMS_INVALID, ctx)
  else
    let e1 := cmp_encoder_params_check params.primary_encoder_type
                params.primary_encoder_param params.primary_encoder_outlier
    if cmp_is_error_int e1 then (e1, ctx)
    else
      let e2 := if params.secondary_iterations ≠ 0 then
                  cmp_encoder_params_check params.secondary_encoder_type
                    params.secondary_encoder_param params.secondary_encoder_outlier
                else errNO_ERROR
      if cmp_is_error_int e2 then (e2, ctx)
      else
        cmp_reset { ctx with params := params, work_buf := work_buf.getD [],
                             work_buf_size := work_buf_size } ts

/-- Result of one compression pass: the returned code (size or error), the
updated context, the final bitstream and the header record that was
serialized into the destination buffer. -/
structure CompressResult where
  ret : Nat
  ctx : CmpContext
  bs : BitstreamWriter
  hdr : CmpHdr
deriving DecidableEq

def errResult (ret : Nat) (ctx : CmpContext) : CompressResult :=
  ⟨ret, ctx, bitstream_writer_init [] 0, zeroHdr⟩

/-- Sample loop of `cmp_compress_u16` (`cmp.c`): for each index, obtain the
residual from the selected preprocessing, encode it, and—when the model is
needed—seed (`sequence_number == 0`) or update the model from the raw
sample.  `count` is the number of remaining samples, `i` the current index. -/
def compressSamples (method : PreprocessingMethod) (enc : CmpEncoder)
    (model_is_needed : Bool) (sequence_number : Nat) (model_rate : Nat)
    (src : List Nat) (i : Nat) (bs : BitstreamWriter) (work : List Nat) :
    Nat → Nat × BitstreamWriter × List Nat
  | 0 => (errNO_ERROR, bs, work)
  | count + 1 =>
      let pr := method.process i src work model_rate
      let er := cmp_encoder_encode_s16 enc pr.1 bs
      if cmp_is_error_int er.1 then (er.1, er.2, pr.2)
      else
        let work2 :=
          if model_is_needed then
            if sequence_number = 0 then pr.2.set i (src.getD i 0 % 65536)
            else pr.2.set i (cmp_up_model16 (src.getD i 0) (pr.2.getD i 0) model_rate)
          else pr.2
        compressSamples method enc model_is_needed sequence_number model_rate
          src (i + 1) er.2 work2 count

/-- Steps 3–13 of a compression pass (`cmp_compress_u16`, after pass-class
selection): model-buffer check, writer and encoder initialisation, placeholder
header, preprocessing, sample loop, finish, header back-patch, sequence
increment. -/
def compressPass (ctx : CmpContext) (selected_preprocessing selected_encoder_type
    selected_encoder_param selected_outlier : Nat) (dst_capacity : Nat)
    (src : List Nat) (src_size : Nat) : CompressResult :=
  let model_is_needed := ctx.params.secondary_preprocessing = CMP_PREPROCESS_MODEL ∧
                         ctx.params.secondary_iterations ≠ 0
  if model_is_needed ∧ ctx.work_buf_size < src_size then
    errResult errWORK_BUF_TOO_SMALL ctx
  else
    let bs0 := bitstream_writer_init (List.replicate dst_capacity 0) dst_capacity
    let ei := cmp_encoder_init selected_encoder_type selected_encoder_param selected_outlier
    if cmp_is_error_int ei.1 then errResult ei.1 ctx
    else
      let enc := ei.2
      let hdr0 : CmpHdr :=
        { version_flag := 1, version_id := CMP_VERSION_NUMBER,
          compressed_size := 0, original_size := src_size,
          identifier := ctx.identifier, sequence_number := ctx.sequence_number,
          preprocessing := selected_preprocessing, checksum_enabled := 0,
          encoder_type := selected_encoder_type,
          model_rate := ctx.params.model_rate,
          encoder_param := selected_encoder_param, encoder_outlier := enc.outlier }
      let sr0 := cmp_hdr_serialize bs0 hdr0
      if cmp_is_error_int sr0.1 then errResult sr0.1 ctx
      else
        match preprocessing_get_method selected_preprocessing with
        | none => errResult errPARAMS_INVALID ctx
        | some method =>
            let ir := method.init src src_size ctx.work_buf ctx.work_buf_size
                        ctx.params.model_rate
            if cmp_is_error_int ir.1 then errResult ir.1 ctx
            else
              let n_values := ir.1
              let lr := compressSamples method enc model_is_needed
                          ctx.sequence_number ctx.params.model_rate src 0 sr0.2 ir.2 n_values
              if cmp_is_error_int lr.1 then errResult lr.1 ctx
              else
                let compressed_size := cmp_encoder_finish lr.2.1
                if cmp_is_error_int compressed_size then errResult compressed_size ctx
                else
                  let rw := bitstream_rewind lr.2.1
                  if cmp_is_error_int rw.1 then errResult rw.1 ctx
                  else
                    let hdr1 := { hdr0 with compressed_size := compressed_size }
                    let sr1 := cmp_hdr_serialize rw.2 hdr1
                    if cmp_is_error_int sr1.1 then errResult sr1.1 ctx
                    else
                      ⟨compressed_size,
                       { ctx with sequence_number := (ctx.sequence_number + 1) % 256,
                                  work_buf := lr.2.2 },
                       sr1.2, hdr1⟩

/-- `cmp_compress_u16` (`cmp.c`): pass-class selection (primary after a reset
or once `sequence_number` exceeds `secondary_iterations`, secondary
otherwise, with the model-size guard), then the pass itself.  `ts` is the
timestamp the provider would return during the internal reset.  The NULL
context check (`CONTEXT_INVALID`) has no model. -/
def cmp_compress_u16 (ctx : CmpContext) (dst_capacity : Nat) (src : List Nat)
    (src_size : Nat) (ts : Nat) : CompressResult :=
  if ctx.sequence_number = 0 ∨ ctx.params.secondary_iterations < ctx.sequence_number then
    let rr := cmp_reset ctx ts
    if cmp_is_error_int rr.1 then errResult rr.1 ctx
    else
      compressPass { rr.2 with model_size := src_size }
        ctx.params.primary_preprocessing ctx.params.primary_encoder_type
        ctx.params.primary_encoder_param ctx.params.primary_encoder_outlier
        dst_capacity src src_size
  else
    if ctx.params.secondary_preprocessing = CMP_PREPROCESS_MODEL ∧
       src_size ≠ ctx.model_size then
      errResult errSRC_SIZE_MISMATCH ctx
    else
      compressPass ctx ctx.params.secondary_preprocessing
        ctx.params.secondary_encoder_type ctx.params.secondary_encoder_param
        ctx.params.secondary_encoder_outlier dst_capacity src src_size

/-! ## DIFF decoding (`src/lib/decompress/decmp.c`)

`decompress_single_u16`, DIFF branch: `dst[i] = (uint16_t)decoded + last`,
i.e. a prefix sum under 16-bit wrap-around. -/

/-- The 16-bit patterns of the DIFF residuals of a sample stream: the values
`diff_process i src` for each index, as emitted by the encoder. -/
def diffResiduals : List Nat → List Nat
  | [] => []
  | x :: rest => x % 65536 :: diffResidualsRest x rest
where
  diffResidualsRest (prev : Nat) : List Nat → List Nat
  | [] => []
  | x :: rest => (x % 65536 + 65536 - prev % 65536) % 65536 :: diffResidualsRest x rest

/-- The DIFF branch of `decompress_single_u16`: running prefix sum of the
decoded residuals, `last_decoded_value` starting at 0. -/
def diffDecode (last : Nat) : List Nat → List Nat
  | [] => []
  | r :: rest =>
      let d := (r + last) % 65536
      d :: diffDecode d rest

/-- Total bit width of a write list. -/
def sumBits (l : List (Nat × Nat)) : Nat := (l.map Prod.snd).sum

/-- A 32-bit write is clean when its width fits and its value has no bits
above the width (the condition `bitstream_add_bits32` checks). -/
def cleanWrite32 (v n : Nat) : Prop := n ≤ 32 ∧ (n = 32 ∨ v >>> n = 0)

/-- A 64-bit write is clean when its width fits and its value is below
`2 ^ width`. -/
def cleanWrite64 (v n : Nat) : Prop := n ≤ 64 ∧ v < 2 ^ n

/-- Writer well-formedness against the destination capacity: the byte
position never passes the capacity, which itself never changes. -/
def bsInv (bs : BitstreamWriter) (cap : Nat) : Prop :=
  bs.pos ≤ cap ∧ bs.capacity = cap

/-! ## Verification -/

/-- Helper for C9: decoding with the running value `prev` inverts the
residual tail built against the same `prev`. -/
theorem diffDecode_diffResidualsRest (rest : List Nat) (prev : Nat)
    (hprev : prev < 65536) (h : ∀ y ∈ rest, y < 65536) :
    diffDecode prev (diffResiduals.diffResidualsRest prev rest) = rest := by
  induction rest generalizing prev with
  | nil => rfl
  | cons x rest ih =>
      have hx : x < 65536 := h x (by simp)
      have hstep : ((x % 65536 + 65536 - prev % 65536) % 65536 + prev) % 65536 = x := by
        omega
      simp only [diffResiduals.diffResidualsRest, diffDecode, hstep, List.cons.injEq,
        true_and]
      exact ih x hx fun y hy => h y (by simp [hy])

/-- C9: For every non-empty sequence of 16-bit samples, applying the DIFF
preprocessing (`diff_process`: residual 0 is `src[0]`, residual `i` is
`src[i] - src[i-1]` under 16-bit wrap-around) and then the decoder's inverse
prefix sum under the same wrap (`decompress_single_u16`, DIFF branch)
reproduces the original sample sequence exactly. -/
theorem diff_then_inverse_roundtrip (src : List Nat) (hne : src ≠ [])
    (h : ∀ x ∈ src, x < 65536) :
    diffDecode 0 (diffResiduals src) = src := by
  cases src with
  | nil => rfl
  | cons x rest =>
      have hx : x < 65536 := h x (by simp)
      have hx0 : (x % 65536 + 0) % 65536 = x := by omega
      simp only [diffResiduals, diffDecode, hx0, List.cons.injEq, true_and]
      exact diffDecode_diffResidualsRest rest x hx fun y hy => h y (by simp [hy])

/-- Witness for C9 at the concrete input `[1, 3, 0, 65535]`. -/
theorem diff_then_inverse_roundtrip_witness :
    diffDecode 0 (diffResiduals [1, 3, 0, 65535]) = [1, 3, 0, 65535] :=
  diff_then_inverse_roundtrip [1, 3, 0, 65535] (by decide) (by decide)

/-- Helper for C10: `cmp_initialise` either leaves the zero context or ends
in `cmp_reset`, whose only outcomes are `NO_ERROR` and `TIMESTAMP_INVALID`. -/
theorem initialise_cases (ctx0 : CmpContext) (params : CmpParams)
    (work_buf : Option (List Nat)) (work_buf_size ts : Nat) :
    (cmp_initialise ctx0 params work_buf work_buf_size ts).2 = zeroCtx ∨
    (cmp_initialise ctx0 params work_buf work_buf_size ts).1 = errNO_ERROR ∨
    (cmp_initialise ctx0 params work_buf work_buf_size ts).1 = errTIMESTAMP_INVALID := by
  simp only [cmp_initialise, cmp_reset]
  split_ifs <;>
    first
      | exact Or.inl rfl
      | exact Or.inr (Or.inr rfl)
      | exact Or.inr (Or.inl rfl)

/-- C10: whenever `cmp_initialise` returns one of the validation errors
(`PARAMS_INVALID`, `WORK_BUF_NULL`, `WORK_BUF_TOO_SMALL` — encoder-parameter
failures surface as `PARAMS_INVALID`), the context is the all-zero context:
the function deinitialises first and installs parameters, work buffer and
identifier only after every validation check passes. -/
theorem initialise_validation_error_zeroes_context (ctx0 : CmpContext)
    (params : CmpParams) (work_buf : Option (List Nat)) (work_buf_size ts : Nat)
    (h : (cmp_initialise ctx0 params work_buf work_buf_size ts).1 = errPARAMS_INVALID ∨
         (cmp_initialise ctx0 params work_buf work_buf_size ts).1 = errWORK_BUF_NULL ∨
         (cmp_initialise ctx0 params work_buf work_buf_size ts).1 = errWORK_BUF_TOO_SMALL) :
    (cmp_initialise ctx0 params work_buf work_buf_size ts).2 = zeroCtx := by
  rcases initialise_cases ctx0 params work_buf work_buf_size ts with h2 | h2 | h2
  · exact h2
  · rcases h with h1 | h1 | h1 <;> exact absurd (h1.symm.trans h2) (by decide)
  · rcases h with h1 | h1 | h1 <;> exact absurd (h1.symm.trans h2) (by decide)

/-- Witness for C10: `model_rate = 17` with secondary MODEL preprocessing is
rejected with `PARAMS_INVALID` and leaves the context zeroed. -/
theorem initialise_validation_error_zeroes_context_witness :
    (cmp_initialise zeroCtx
        { zeroParams with secondary_preprocessing := 3, secondary_iterations := 1, model_rate := 17 }
        (some [0]) 2 0).1 = errPARAMS_INVALID ∧
    (cmp_initialise zeroCtx
        { zeroParams with secondary_preprocessing := 3, secondary_iterations := 1, model_rate := 17 }
        (some [0]) 2 0).2 = zeroCtx :=
  ⟨by decide,
   initialise_validation_error_zeroes_context zeroCtx
     { zeroParams with secondary_preprocessing := 3, secondary_iterations := 1, model_rate := 17 }
     (some [0]) 2 0 (Or.inl (by decide))⟩

/-- C6 (code evaluated at the failing input): compressing with a context that
was just deinitialised (all-zero) does not fail with `CONTEXT_INVALID`: the
pass runs as a primary NONE/UNCOMPRESSED pass and returns a frame size
(20 = 16-byte header + 4 payload bytes).  `cmp_compress_u16` only rejects a
NULL context pointer; it never checks the context's magic guard. -/
theorem deinitialised_context_compress_succeeds :
    (cmp_compress_u16 (cmp_deinitialise
        ⟨7, zeroParams, [1], 2, 2, 5, 3⟩) 32 [0, 0] 4 0).ret = 20 ∧
    cmp_is_error_int (cmp_compress_u16 (cmp_deinitialise
        ⟨7, zeroParams, [1], 2, 2, 5, 3⟩) 32 [0, 0] 4 0).ret = false := by
  decide

/-- C3 (code evaluated at the failing input): with `checksum_enabled = 1`,
a successful pass over the 6-byte input `CA00 FF00 EE00` returns exactly
`CMP_HDR_SIZE + 6 = 22` bytes — no 4-byte checksum trailer is produced or
accounted for — and the emitted header's checksum flag is 0. -/
theorem checksum_trailer_not_emitted :
    (cmp_compress_u16
        (cmp_initialise zeroCtx { zeroParams with checksum_enabled := 1 } none 0 0).2
        64 [202, 255, 238] 6 0).ret = CMP_HDR_SIZE + 6 ∧
    cmp_is_error_int (cmp_compress_u16
        (cmp_initialise zeroCtx { zeroParams with checksum_enabled := 1 } none 0 0).2
        64 [202, 255, 238] 6 0).ret = false ∧
    (cmp_compress_u16
        (cmp_initialise zeroCtx { zeroParams with checksum_enabled := 1 } none 0 0).2
        64 [202, 255, 238] 6 0).hdr.checksum_enabled = 0 := by
  decide

/-- C4 (code evaluated at the failing input): with
`uncompressed_fallback_enabled = 1`, DIFF preprocessing and GOLOMB_ZERO
(m = 1) on the incompressible input `AAAA BBBB CCCC`, the pass succeeds with
29 bytes — at least the 22-byte uncompressed representation
(`CMP_HDR_SIZE + src_size`) — yet the emitted header still reports
DIFF/GOLOMB_ZERO: no uncompressed fallback is performed. -/
theorem uncompressed_fallback_not_applied :
    (cmp_compress_u16
        (cmp_initialise zeroCtx
          { zeroParams with uncompressed_fallback_enabled := 1, primary_preprocessing := 1, primary_encoder_type := 1, primary_encoder_param := 1 }
          none 0 0).2
        64 [43690, 48059, 52428] 6 0).ret = 29 ∧
    cmp_is_error_int (cmp_compress_u16
        (cmp_initialise zeroCtx
          { zeroParams with uncompressed_fallback_enabled := 1, primary_preprocessing := 1, primary_encoder_type := 1, primary_encoder_param := 1 }
          none 0 0).2
        64 [43690, 48059, 52428] 6 0).ret = false ∧
    CMP_HDR_SIZE + 6 ≤ 29 ∧
    (cmp_compress_u16
        (cmp_initialise zeroCtx
          { zeroParams with uncompressed_fallback_enabled := 1, primary_preprocessing := 1, primary_encoder_type := 1, primary_encoder_param := 1 }
          none 0 0).2
        64 [43690, 48059, 52428] 6 0).hdr.preprocessing = CMP_PREPROCESS_DIFF ∧
    (cmp_compress_u16
        (cmp_initialise zeroCtx
          { zeroParams with uncompressed_fallback_enabled := 1, primary_preprocessing := 1, primary_encoder_type := 1, primary_encoder_param := 1 }
          none 0 0).2
        64 [43690, 48059, 52428] 6 0).hdr.encoder_type = CMP_ENCODER_GOLOMB_ZERO := by
  decide

/-- C7 (code evaluated at the failing input): with secondary MODEL
preprocessing and `model_rate = 1`, after seeding the model with 21 (first
pass) and compressing the sample 5 (second pass), the model entry ends at 5:
the blend is applied twice — once inside `model_process` (21·1 + 5·15)/16 = 6
and once more by the compression loop's `update_model` (6·1 + 5·15)/16 = 5 —
whereas a single application of the blending rule gives 6. -/
theorem model_blend_applied_twice :
    (cmp_compress_u16
      (cmp_compress_u16
        (cmp_initialise zeroCtx
          { zeroParams with secondary_preprocessing := 3, secondary_iterations := 2, model_rate := 1 }
          (some [0]) 2 0).2
        64 [21] 2 0).ctx
      64 ([5] : List Nat) 2 0).ctx.work_buf = [5] ∧
    cmp_is_error_int (cmp_compress_u16
      (cmp_compress_u16
        (cmp_initialise zeroCtx
          { zeroParams with secondary_preprocessing := 3, secondary_iterations := 2, model_rate := 1 }
          (some [0]) 2 0).2
        64 [21] 2 0).ctx
      64 ([5] : List Nat) 2 0).ret = false ∧
    cmp_up_model16 5 21 1 = 6 ∧ (5 : Nat) ≠ 6 := by
  decide

/-- The halving loop agrees with `Nat.log2` when the fuel dominates. -/
theorem ilog2Loop_eq_log2 (fuel x : Nat) (h : x < 2 ^ fuel) :
    ilog2Loop x fuel = Nat.log2 x := by
  induction fuel generalizing x with
  | zero => interval_cases x; simp [ilog2Loop, Nat.log2]
  | succ n ih =>
      unfold ilog2Loop
      split_ifs with h1
      · interval_cases x <;> simp [Nat.log2]
      · rw [ih (x / 2) (by omega)]
        conv_rhs => rw [Nat.log2]
        rw [if_pos (by omega)]
/-- Unfolding of `cmp_encoder_init` for the zero-escape Golomb encoder. -/
theorem cmp_encoder_init_zero_eq (p o : Nat) :
    cmp_encoder_init 1 p o =
      (if p < 1 ∨ 65535 < p then (errPARAMS_INVALID, { zeroEnc with encoder_type := 1 })
       else if min (golomb_optimal_outlier_zero p 16) (golomb_upper_bound p 1 16) = 0 then
         (errPARAMS_INVALID,
          { encoder_type := 1, g_par := p, g_par_log2 := ilog2 p,
            outlier := min (golomb_optimal_outlier_zero p 16) (golomb_upper_bound p 1 16) })
       else
         (errNO_ERROR,
          { encoder_type := 1, g_par := p, g_par_log2 := ilog2 p,
            outlier := min (golomb_optimal_outlier_zero p 16) (golomb_upper_bound p 1 16) })) := rfl

/-- Unfolding of `cmp_encoder_init` for the multi-escape Golomb encoder. -/
theorem cmp_encoder_init_multi_eq (p o : Nat) :
    cmp_encoder_init 2 p o =
      (if p < 1 ∨ 65535 < p then (errPARAMS_INVALID, { zeroEnc with encoder_type := 2 })
       else if min o (golomb_upper_bound p 2 16) = 0 then
         (errPARAMS_INVALID,
          { encoder_type := 2, g_par := p, g_par_log2 := ilog2 p,
            outlier := min o (golomb_upper_bound p 2 16) })
       else
         (errNO_ERROR,
          { encoder_type := 2, g_par := p, g_par_log2 := ilog2 p,
            outlier := min o (golomb_upper_bound p 2 16) })) := rfl

/-- Facts from a successful zero-escape `cmp_encoder_init`: the clamped
outlier is nonzero and the encoder fields are fully determined. -/
theorem encoder_init_zero_facts (p o : Nat) (enc : CmpEncoder)
    (hp1 : 1 ≤ p) (hp2 : p ≤ 65535)
    (hinit : cmp_encoder_init 1 p o = (errNO_ERROR, enc)) :
    1 ≤ min (golomb_optimal_outlier_zero p 16) (golomb_upper_bound p 1 16) ∧
      enc = ⟨1, p, ilog2 p, min (golomb_optimal_outlier_zero p 16) (golomb_upper_bound p 1 16)⟩ := by
  rw [cmp_encoder_init_zero_eq, if_neg (by omega : ¬(p < 1 ∨ 65535 < p))] at hinit
  by_cases h0 : min (golomb_optimal_outlier_zero p 16) (golomb_upper_bound p 1 16) = 0
  · rw [if_pos h0] at hinit
    injection hinit with h1 h2
    exact absurd h1 (by decide)
  · rw [if_neg h0] at hinit
    injection hinit with h1 h2
    exact ⟨by omega, h2.symm⟩

/-- Facts from a successful multi-escape `cmp_encoder_init`: the clamped
outlier is nonzero and the encoder fields are fully determined. -/
theorem encoder_init_multi_facts (p o : Nat) (enc : CmpEncoder)
    (hp1 : 1 ≤ p) (hp2 : p ≤ 65535)
    (hinit : cmp_encoder_init 2 p o = (errNO_ERROR, enc)) :
    1 ≤ min o (golomb_upper_bound p 2 16) ∧
      enc = ⟨2, p, ilog2 p, min o (golomb_upper_bound p 2 16)⟩ := by
  rw [cmp_encoder_init_multi_eq, if_neg (by omega : ¬(p < 1 ∨ 65535 < p))] at hinit
  by_cases h0 : min o (golomb_upper_bound p 2 16) = 0
  · rw [if_pos h0] at hinit
    injection hinit with h1 h2
    exact absurd h1 (by decide)
  · rw [if_neg h0] at hinit
    injection hinit with h1 h2
    exact ⟨by omega, h2.symm⟩

/-- `ilog2` agrees with `Nat.log 2` on nonzero `uint32` values. -/
theorem ilog2_eq_log (x : Nat) (h1 : x ≠ 0) (h2 : x < 4294967296) :
    ilog2 x = Nat.log 2 x := by
  unfold ilog2
  rw [if_neg h1, ilog2Loop_eq_log2 32 x (by norm_num; omega), Nat.log2_eq_log_two]

/-- Bracketing property of `ilog2` on nonzero `uint32` values. -/
theorem ilog2_bracket (x : Nat) (h1 : x ≠ 0) (h2 : x < 4294967296) :
    2 ^ ilog2 x ≤ x ∧ x < 2 ^ (ilog2 x + 1) := by
  rw [ilog2_eq_log x h1 h2]
  exact ⟨Nat.pow_log_le_self 2 h1, Nat.lt_pow_succ_log_self (by omega) x⟩

/-- `ilog2` bound below a power of two. -/
theorem ilog2_lt_of_lt_pow (x n : Nat) (h1 : x ≠ 0) (h2 : x < 4294967296)
    (h : x < 2 ^ n) : ilog2 x < n := by
  rw [ilog2_eq_log x h1 h2]
  exact Nat.log_lt_of_lt_pow h1 h

/-- Length bound for `golomb_encode`: every value below
`cutoff + (31 - k)·p` has a codeword of at most 32 bits. -/
theorem golomb_encode_cw_len_le (value p k : Nat) (hp : 1 ≤ p) (hk : k ≤ 15)
    (hv : value < 2 * 2 ^ k - p + (31 - k) * p) :
    (golomb_encode_cw value p k).2 ≤ 32 := by
  simp only [golomb_encode_cw, Nat.shiftLeft_eq]
  split_ifs with h1
  · simp only
    omega
  · simp only
    have hdiv : (value - (2 * 2 ^ k - p)) / p < 31 - k := by
      rw [Nat.div_lt_iff_lt_mul (by omega)]
      omega
    omega

/-- Unfolding of `golomb_upper_bound` for the zero-escape encoder on valid
parameters: `cutoff + (31 - k)·g_par` with `k = ilog2 g_par`. -/
theorem golomb_upper_bound_zero_eq (p : Nat) (hp1 : 1 ≤ p) (hp2 : p ≤ 65535) :
    golomb_upper_bound p 1 16 = 2 * 2 ^ ilog2 p - p + (31 - ilog2 p) * p := by
  have hk : ilog2 p < 16 := ilog2_lt_of_lt_pow p 16 (by omega) (by omega) (by omega)
  simp only [golomb_upper_bound, CMP_MIN_GOLOMB_PAR, CMP_MAX_GOLOMB_PAR,
    CMP_NUM_BITS_PER_SAMPLE, CMP_GOLOMB_MAX_CODEWORD_BITS, Nat.shiftLeft_eq]
  rw [if_neg (by omega : ¬(p < 1 ∨ 65535 < p)), if_neg (by omega : ¬16 < 16),
    if_neg (by omega : ¬(1 : Nat) = 2)]
  have h33 : 32 + 1 - (ilog2 p + 2) = 31 - ilog2 p := by omega
  rw [h33]

/-- Unfolding of `golomb_upper_bound` for the multi-escape encoder on valid
parameters: the zero-escape bound minus the 8 reserved escape symbols. -/
theorem golomb_upper_bound_multi_eq (p : Nat) (hp1 : 1 ≤ p) (hp2 : p ≤ 65535) :
    golomb_upper_bound p 2 16 =
      2 * 2 ^ ilog2 p - p + (31 - ilog2 p) * p - 8 := by
  have hk : ilog2 p < 16 := ilog2_lt_of_lt_pow p 16 (by omega) (by omega) (by omega)
  have hbr := ilog2_bracket p (by omega) (by omega)
  simp only [golomb_upper_bound, CMP_MIN_GOLOMB_PAR, CMP_MAX_GOLOMB_PAR,
    CMP_NUM_BITS_PER_SAMPLE, CMP_GOLOMB_MAX_CODEWORD_BITS, Nat.shiftLeft_eq]
  rw [if_neg (by omega : ¬(p < 1 ∨ 65535 < p)), if_neg (by omega : ¬16 < 16),
    if_pos trivial]
  have h33 : 32 + 1 - (ilog2 p + 2) = 31 - ilog2 p := by omega
  have hge : 16 * p ≤ (31 - ilog2 p) * p := Nat.mul_le_mul_right p (by omega)
  rw [h33, if_pos (by omega : (16 + 1) / 2 < 2 * 2 ^ ilog2 p - p + (31 - ilog2 p) * p)]

/-- Unfolding of `golomb_optimal_outlier_zero` on valid parameters:
`cutoff + 16·g_par - 1` (the `UINT32_MAX` cap is never reached). -/
theorem golomb_optimal_outlier_zero_eq (p : Nat) (hp1 : 1 ≤ p) (hp2 : p ≤ 65535) :
    golomb_optimal_outlier_zero p 16 = 2 * 2 ^ ilog2 p - p + 16 * p - 1 := by
  have hk : ilog2 p < 16 := ilog2_lt_of_lt_pow p 16 (by omega) (by omega) (by omega)
  have hbr := ilog2_bracket p (by omega) (by omega)
  have hcut : 2 * 2 ^ ilog2 p ≤ 2 * 2 ^ 15 := by
    have : (2 : Nat) ^ ilog2 p ≤ 2 ^ 15 := Nat.pow_le_pow_right (by omega) (by omega)
    omega
  simp only [golomb_optimal_outlier_zero, CMP_MIN_GOLOMB_PAR, CMP_MAX_GOLOMB_PAR,
    CMP_GOLOMB_MAX_CODEWORD_BITS, Nat.shiftLeft_eq]
  rw [if_neg (by omega : ¬(p < 1 ∨ 65535 < p)), if_neg (by omega : ¬(16 < 1 ∨ 32 < 16)),
    if_neg (by omega : ¬4294967295 < 2 * 2 ^ ilog2 p - p + 16 * p - 1)]

/-- Unfolding of `encodeWrites` for a zero-escape encoder record. -/
theorem encodeWrites_zero_eq (g k ol : Nat) (value : Int) :
    encodeWrites ⟨1, g, k, ol⟩ value =
      (if map_to_unsigned16 value % 65536 < ol then
        [golomb_encode_cw (map_to_unsigned16 value % 65536 + 1) g k]
       else
        [golomb_encode_cw 0 g k, (map_to_unsigned16 value % 65536, 16)]) := rfl

/-- Unfolding of `encodeWrites` for a multi-escape encoder record. -/
theorem encodeWrites_multi_eq (g k ol : Nat) (value : Int) :
    encodeWrites ⟨2, g, k, ol⟩ value =
      (if map_to_unsigned16 value % 65536 < ol then
        [golomb_encode_cw (map_to_unsigned16 value % 65536) g k]
       else
        [golomb_encode_cw (ol + (if map_to_unsigned16 value % 65536 - ol < 4 then 0
            else ilog2 (map_to_unsigned16 value % 65536 - ol) / 2)) g k,
         (map_to_unsigned16 value % 65536 - ol,
          ((if map_to_unsigned16 value % 65536 - ol < 4 then 0
            else ilog2 (map_to_unsigned16 value % 65536 - ol) / 2) + 1) * 2)]) := rfl

/-- C2: For every encoder successfully initialised by `cmp_encoder_init`
with a Golomb type (GOLOMB_ZERO = 1 or GOLOMB_MULTI = 2) and
`1 ≤ encoder_param ≤ 65535`, and every 16-bit signed input value, every
`(value, width)` pair that `cmp_encoder_encode_s16` writes to the bitstream
is at most 32 bits wide — in particular every Golomb codeword
(`golomb_encode_cw`) is at most 32 bits, because the clamped outlier keeps
every Golomb-encoded value (zero-escape `+1` offset and multi-escape
`outlier + level` symbols included) below `golomb_upper_bound`. -/
theorem golomb_codeword_at_most_32_bits (et p o : Nat) (enc : CmpEncoder)
    (het : et = 1 ∨ et = 2) (hp1 : 1 ≤ p) (hp2 : p ≤ 65535)
    (hinit : cmp_encoder_init et p o = (errNO_ERROR, enc)) (value : Int) :
    ∀ w ∈ encodeWrites enc value, w.2 ≤ 32 := by
  have hk : ilog2 p < 16 := ilog2_lt_of_lt_pow p 16 (by omega) (by omega) (by omega)
  have hbr := ilog2_bracket p (by omega) (by omega)
  have hm : map_to_unsigned16 value % 65536 < 65536 := Nat.mod_lt _ (by omega)
  have h16 : 16 * p ≤ (31 - ilog2 p) * p := Nat.mul_le_mul_right p (by omega)
  rcases het with het | het <;> subst het
  · obtain ⟨hol, henc⟩ := encoder_init_zero_facts p o enc hp1 hp2 hinit
    subst henc
    have hopt := golomb_optimal_outlier_zero_eq p hp1 hp2
    have hub := golomb_upper_bound_zero_eq p hp1 hp2
    rw [encodeWrites_zero_eq]
    intro w hw
    split_ifs at hw with hcase
    · simp only [List.mem_singleton] at hw
      subst hw
      exact golomb_encode_cw_len_le _ p (ilog2 p) hp1 (by omega) (by omega)
    · simp only [List.mem_cons, List.mem_singleton, List.not_mem_nil, or_false] at hw
      rcases hw with hw | hw <;> subst hw
      · exact golomb_encode_cw_len_le 0 p (ilog2 p) hp1 (by omega) (by omega)
      · exact (by omega : (16 : Nat) ≤ 32)
  · obtain ⟨hol, henc⟩ := encoder_init_multi_facts p o enc hp1 hp2 hinit
    subst henc
    have hub := golomb_upper_bound_multi_eq p hp1 hp2
    rw [encodeWrites_multi_eq]
    intro w hw
    split_ifs at hw with hcase hlevel
    · simp only [List.mem_singleton] at hw
      subst hw
      exact golomb_encode_cw_len_le _ p (ilog2 p) hp1 (by omega) (by omega)
    · simp only [List.mem_cons, List.mem_singleton, List.not_mem_nil, or_false] at hw
      rcases hw with hw | hw <;> subst hw
      · exact golomb_encode_cw_len_le _ p (ilog2 p) hp1 (by omega) (by omega)
      · exact (by omega : ((0 + 1) * 2 : Nat) ≤ 32)
    · have hdne : map_to_unsigned16 value % 65536 - min o (golomb_upper_bound p 2 16) ≠ 0 := by
        omega
      have hlev : ilog2 (map_to_unsigned16 value % 65536 - min o (golomb_upper_bound p 2 16)) < 16 :=
        ilog2_lt_of_lt_pow _ 16 hdne (by omega) (by omega)
      simp only [List.mem_cons, List.mem_singleton, List.not_mem_nil, or_false] at hw
      rcases hw with hw | hw <;> subst hw
      · exact golomb_encode_cw_len_le _ p (ilog2 p) hp1 (by omega) (by omega)
      · exact (by omega :
          (ilog2 (map_to_unsigned16 value % 65536 - min o (golomb_upper_bound p 2 16)) / 2 + 1) * 2 ≤ 32)

/-- Witness for C2: the zero-escape encoder with `m = 1`, encoding `-8`
(one 17-bit Golomb codeword). -/
theorem golomb_codeword_at_most_32_bits_witness :
    (1 = 1 ∨ 1 = 2) ∧ 1 ≤ 1 ∧ 1 ≤ 65535 ∧
    cmp_encoder_init 1 1 0 = (errNO_ERROR, (cmp_encoder_init 1 1 0).2) ∧
    (∀ w ∈ encodeWrites (cmp_encoder_init 1 1 0).2 (-8), w.2 ≤ 32) :=
  ⟨Or.inl rfl, le_refl 1, by omega, by decide,
   golomb_codeword_at_most_32_bits 1 1 0 (cmp_encoder_init 1 1 0).2 (Or.inl rfl)
     (le_refl 1) (by omega) (by decide) (-8)⟩

/-- State advance of one clean `bitstream_add_bits32` on an error-free writer
that has absorbed `B` bits since initialisation: the position is the number
of completed 8-byte stores and the cache capacity mirrors `B mod 64`. -/
theorem add32_advance (bs : BitstreamWriter) (v n B : Nat)
    (herr : bs.error = errNO_ERROR)
    (hpos : bs.pos = 8 * (B / 64)) (hcap : bs.bit_cap = 64 - B % 64)
    (hw : cleanWrite32 v n)
    (hroom : 8 * ((B + n) / 64) ≤ bs.capacity) :
    (bitstream_add_bits32 bs v n).error = errNO_ERROR ∧
    (bitstream_add_bits32 bs v n).pos = 8 * ((B + n) / 64) ∧
    (bitstream_add_bits32 bs v n).bit_cap = 64 - (B + n) % 64 ∧
    (bitstream_add_bits32 bs v n).capacity = bs.capacity := by
  obtain ⟨hn, hclean⟩ := hw
  unfold bitstream_add_bits32 bitstream_error
  rw [if_neg (by rw [herr]; decide), if_neg (by omega : ¬32 < n),
    if_neg (by rcases hclean with h | h <;> simp_all)]
  split_ifs with hfast hslow
  · refine ⟨herr, ?_, ?_, rfl⟩ <;> simp only <;> omega
  · refine ⟨herr, ?_, ?_, rfl⟩ <;> simp only <;> omega
  · exact absurd hroom (by push_neg; omega)

/-- State advance of a clean 32-bit write list fold. -/
theorem fold32_advance (l : List (Nat × Nat)) (bs : BitstreamWriter) (B : Nat)
    (herr : bs.error = errNO_ERROR)
    (hpos : bs.pos = 8 * (B / 64)) (hcap : bs.bit_cap = 64 - B % 64)
    (hclean : ∀ w ∈ l, cleanWrite32 w.1 w.2)
    (hroom : 8 * ((B + sumBits l) / 64) ≤ bs.capacity) :
    (l.foldl (fun b w => bitstream_add_bits32 b w.1 w.2) bs).error = errNO_ERROR ∧
    (l.foldl (fun b w => bitstream_add_bits32 b w.1 w.2) bs).pos = 8 * ((B + sumBits l) / 64) ∧
    (l.foldl (fun b w => bitstream_add_bits32 b w.1 w.2) bs).bit_cap = 64 - (B + sumBits l) % 64 ∧
    (l.foldl (fun b w => bitstream_add_bits32 b w.1 w.2) bs).capacity = bs.capacity := by
  induction l generalizing bs B with
  | nil => exact ⟨herr, by simpa [sumBits], by simpa [sumBits], rfl⟩
  | cons w rest ih =>
      have hw := hclean w (by simp)
      have hsum : sumBits (w :: rest) = w.2 + sumBits rest := by
        simp [sumBits]
      have hroomw : 8 * ((B + w.2) / 64) ≤ bs.capacity := by
        have : (B + w.2) / 64 ≤ (B + sumBits (w :: rest)) / 64 :=
          Nat.div_le_div_right (by omega)
        omega
      obtain ⟨h1, h2, h3, h4⟩ := add32_advance bs w.1 w.2 B herr hpos hcap hw hroomw
      have hrest := ih (bitstream_add_bits32 bs w.1 w.2) (B + w.2) h1 h2 h3
        (fun x hx => hclean x (by simp [hx])) (by rw [h4]; omega)
      rw [h4] at hrest
      simpa [hsum, Nat.add_assoc] using hrest

/-- Values below `2 ^ n` vanish when shifted right by `n`. -/
theorem shiftRight_eq_zero_of_lt (v n : Nat) (h : v < 2 ^ n) : v >>> n = 0 := by
  simp [Nat.shiftRight_eq_div_pow, Nat.div_eq_of_lt h]

/-- State advance of one clean `bitstream_add_bits64`. -/
theorem add64_advance (bs : BitstreamWriter) (v n B : Nat)
    (herr : bs.error = errNO_ERROR)
    (hpos : bs.pos = 8 * (B / 64)) (hcap : bs.bit_cap = 64 - B % 64)
    (hw : cleanWrite64 v n)
    (hroom : 8 * ((B + n) / 64) ≤ bs.capacity) :
    (bitstream_add_bits64 bs v n).error = errNO_ERROR ∧
    (bitstream_add_bits64 bs v n).pos = 8 * ((B + n) / 64) ∧
    (bitstream_add_bits64 bs v n).bit_cap = 64 - (B + n) % 64 ∧
    (bitstream_add_bits64 bs v n).capacity = bs.capacity := by
  obtain ⟨hn, hv⟩ := hw
  unfold bitstream_add_bits64
  split_ifs with h32
  · refine add32_advance bs (v % 4294967296) n B herr hpos hcap ⟨h32, ?_⟩ hroom
    rcases Nat.eq_or_lt_of_le h32 with h | h
    · exact Or.inl h
    · refine Or.inr (shiftRight_eq_zero_of_lt _ n (lt_of_le_of_lt (Nat.mod_le _ _) hv))
  · have hhi : cleanWrite32 (v >>> 32) (n - 32) := by
      refine ⟨by omega, Or.inr ?_⟩
      rw [← Nat.shiftRight_add]
      exact shiftRight_eq_zero_of_lt v (32 + (n - 32))
        (by rw [show 32 + (n - 32) = n by omega]; exact hv)
    obtain ⟨h1, h2, h3, h4⟩ := add32_advance bs (v >>> 32) (n - 32) B herr hpos hcap hhi
      (by have : (B + (n - 32)) / 64 ≤ (B + n) / 64 := Nat.div_le_div_right (by omega); omega)
    obtain ⟨g1, g2, g3, g4⟩ := add32_advance (bitstream_add_bits32 bs (v >>> 32) (n - 32))
      (v % 4294967296) 32 (B + (n - 32)) h1 h2 h3 ⟨le_refl 32, Or.inl rfl⟩
      (by rw [h4, show B + (n - 32) + 32 = B + n by omega]; exact hroom)
    rw [h4] at g4
    rw [show B + (n - 32) + 32 = B + n by omega] at g2 g3
    exact ⟨g1, g2, g3, g4⟩

/-- State advance of a clean 64-bit write list fold (as used by
`cmp_hdr_serialize`). -/
theorem fold64_advance (l : List (Nat × Nat)) (bs : BitstreamWriter) (B : Nat)
    (herr : bs.error = errNO_ERROR)
    (hpos : bs.pos = 8 * (B / 64)) (hcap : bs.bit_cap = 64 - B % 64)
    (hclean : ∀ w ∈ l, cleanWrite64 w.1 w.2)
    (hroom : 8 * ((B + sumBits l) / 64) ≤ bs.capacity) :
    (l.foldl (fun b w => bitstream_add_bits64 b w.1 w.2) bs).error = errNO_ERROR ∧
    (l.foldl (fun b w => bitstream_add_bits64 b w.1 w.2) bs).pos = 8 * ((B + sumBits l) / 64) ∧
    (l.foldl (fun b w => bitstream_add_bits64 b w.1 w.2) bs).bit_cap = 64 - (B + sumBits l) % 64 ∧
    (l.foldl (fun b w => bitstream_add_bits64 b w.1 w.2) bs).capacity = bs.capacity := by
  induction l generalizing bs B with
  | nil => exact ⟨herr, by simpa [sumBits], by simpa [sumBits], rfl⟩
  | cons w rest ih =>
      have hw := hclean w (by simp)
      have hsum : sumBits (w :: rest) = w.2 + sumBits rest := by simp [sumBits]
      have hroomw : 8 * ((B + w.2) / 64) ≤ bs.capacity := by
        have : (B + w.2) / 64 ≤ (B + sumBits (w :: rest)) / 64 :=
          Nat.div_le_div_right (by omega)
        omega
      obtain ⟨h1, h2, h3, h4⟩ := add64_advance bs w.1 w.2 B herr hpos hcap hw hroomw
      have hrest := ih (bitstream_add_bits64 bs w.1 w.2) (B + w.2) h1 h2 h3
        (fun x hx => hclean x (by simp [hx])) (by rw [h4]; omega)
      rw [h4] at hrest
      simpa [hsum, Nat.add_assoc] using hrest

/-- `flushLoop` succeeds whenever the pending bytes fit the buffer. -/
theorem flushLoop_isSome (n : Nat) (mem : List Nat) (cap pos tmp : Nat)
    (h : pos + n ≤ cap) : (flushLoop mem cap pos tmp n).isSome = true := by
  induction n generalizing mem pos tmp with
  | zero => rfl
  | succ k ih =>
      unfold flushLoop
      rw [if_pos (by omega)]
      exact ih _ (pos + 1) _ (by omega)

/-- Byte count returned by a successful `bitstream_flush`: position plus
pending cache bytes. -/
theorem bitstream_flush_count (bs : BitstreamWriter) (herr : bs.error = errNO_ERROR)
    (h : bs.pos + (64 - bs.bit_cap + 7) / 8 ≤ bs.capacity) :
    (bitstream_flush bs).1 = bs.pos + (64 - bs.bit_cap + 7) / 8 := by
  have hsome := flushLoop_isSome ((64 - bs.bit_cap + 7) / 8) bs.mem bs.capacity bs.pos
    ((bs.cache <<< bs.bit_cap) % 18446744073709551616) h
  unfold bitstream_flush
  rw [if_neg (by rw [bitstream_error, herr]; decide)]
  obtain ⟨m', hm⟩ := Option.isSome_iff_exists.mp hsome
  simp only [hm]

/-- A fresh writer has written nothing. -/
theorem bitstream_size_init (mem : List Nat) (cap : Nat) :
    bitstream_size (bitstream_writer_init mem cap) = 0 := by
  have hx : cmp_is_error_int (bitstream_error (bitstream_writer_init mem cap)) = false := rfl
  have hp : (bitstream_writer_init mem cap).pos = 0 := rfl
  have hb : (bitstream_writer_init mem cap).bit_cap = 64 := rfl
  unfold bitstream_size
  rw [hx, hp, hb]
  norm_num

/-- The writes of `cmp_hdr_serialize` are clean when the header fields are in
the ranges of the on-disk bit fields. -/
theorem hdrWrites_clean (hdr : CmpHdr)
    (hvf : hdr.version_flag ≤ 1) (hvi : hdr.version_id < 32768)
    (hcs : hdr.compressed_size ≤ 16777215) (hos : hdr.original_size ≤ 16777215)
    (hid : hdr.identifier < 281474976710656) (hsq : hdr.sequence_number < 256)
    (hpp : hdr.preprocessing < 16) (hce : hdr.checksum_enabled ≤ 1)
    (het : hdr.encoder_type < 8) (hmr : hdr.model_rate < 256)
    (hep : hdr.encoder_param < 65536) (heo : hdr.encoder_outlier < 16777216) :
    ∀ w ∈ hdrWrites hdr, cleanWrite64 w.1 w.2 := by
  intro w hw
  unfold hdrWrites at hw
  split_ifs at hw
  · simp only [List.mem_append, List.mem_cons, List.not_mem_nil, or_false] at hw
    rcases hw with (rfl | rfl | rfl | rfl | rfl | rfl | rfl | rfl | rfl) | (rfl | rfl | rfl) <;>
      exact ⟨by norm_num, by norm_num; omega⟩
  · simp only [List.append_nil, List.mem_cons, List.not_mem_nil, or_false] at hw
    rcases hw with rfl | rfl | rfl | rfl | rfl | rfl | rfl | rfl | rfl <;>
      exact ⟨by norm_num, by norm_num; omega⟩

/-- Total bit width of the header writes: 128 for the base header, 176 with
the extended header. -/
theorem hdrWrites_sumBits (hdr : CmpHdr) :
    sumBits (hdrWrites hdr) =
      if hdr.preprocessing ≠ 0 ∨ hdr.encoder_type ≠ 0 then 176 else 128 := by
  unfold hdrWrites
  split_ifs <;> simp [sumBits]

/-- Byte count of `cmp_hdr_serialize` on a fresh writer with enough capacity:
16 bytes for the base header alone, 22 bytes when the extended header is
present. -/
theorem cmp_hdr_serialize_fresh_count (mem : List Nat) (cap : Nat) (hdr : CmpHdr)
    (hcap : 22 ≤ cap)
    (hvf : hdr.version_flag ≤ 1) (hvi : hdr.version_id < 32768)
    (hcs : hdr.compressed_size ≤ 16777215) (hos : hdr.original_size ≤ 16777215)
    (hid : hdr.identifier < 281474976710656) (hsq : hdr.sequence_number < 256)
    (hpp : hdr.preprocessing < 16) (hce : hdr.checksum_enabled ≤ 1)
    (het : hdr.encoder_type < 8) (hmr : hdr.model_rate < 256)
    (hep : hdr.encoder_param < 65536) (heo : hdr.encoder_outlier < 16777216) :
    (cmp_hdr_serialize (bitstream_writer_init mem cap) hdr).1 =
      if hdr.preprocessing ≠ 0 ∨ hdr.encoder_type ≠ 0 then 22 else 16 := by
  have hclean := hdrWrites_clean hdr hvf hvi hcs hos hid hsq hpp hce het hmr hep heo
  have hsum := hdrWrites_sumBits hdr
  have hcapproj : (bitstream_writer_init mem cap).capacity = cap := rfl
  have hroom : 8 * ((0 + sumBits (hdrWrites hdr)) / 64) ≤
      (bitstream_writer_init mem cap).capacity := by
    rw [hcapproj, hsum]
    split_ifs <;> norm_num <;> omega
  obtain ⟨h1, h2, h3, h4⟩ := fold64_advance (hdrWrites hdr) (bitstream_writer_init mem cap) 0
    rfl (by norm_num [bitstream_writer_init]) (by norm_num [bitstream_writer_init]) hclean hroom
  have hfl := bitstream_flush_count
    ((hdrWrites hdr).foldl (fun b w => bitstream_add_bits64 b w.1 w.2)
      (bitstream_writer_init mem cap))
    h1 (by rw [h2, h3, h4, hcapproj, hsum]; split_ifs <;> norm_num <;> omega)
  rw [h2, h3, hsum] at hfl
  unfold cmp_hdr_serialize
  rw [if_neg (show ¬(CMP_HDR_MAX_COMPRESSED_SIZE < hdr.compressed_size) by
        unfold CMP_HDR_MAX_COMPRESSED_SIZE; norm_num; omega),
      if_neg (show ¬(CMP_HDR_MAX_ORIGINAL_SIZE < hdr.original_size) by
        unfold CMP_HDR_MAX_ORIGINAL_SIZE; norm_num; omega),
      if_neg (show ¬(2 ^ 48 - 1 < hdr.identifier) by norm_num; omega)]
  simp only [bitstream_size_init]
  rw [if_neg (show ¬(cmp_is_error_int 0 = true) by decide)]
  by_cases hext : hdr.preprocessing ≠ 0 ∨ hdr.encoder_type ≠ 0
  · rw [if_pos hext] at hfl ⊢
    norm_num at hfl
    rw [hfl, if_neg (show ¬(cmp_is_error_int 22 = true) by decide)]
  · rw [if_neg hext] at hfl ⊢
    norm_num at hfl
    rw [hfl, if_neg (show ¬(cmp_is_error_int 16 = true) by decide)]

/-- `bitstream_add_bits32` keeps the writer inside its buffer. -/
theorem add32_inv (bs : BitstreamWriter) (cap v n : Nat) (h : bsInv bs cap) :
    bsInv (bitstream_add_bits32 bs v n) cap := by
  obtain ⟨hp, hc⟩ := h
  unfold bitstream_add_bits32
  split_ifs <;> refine ⟨?_, ?_⟩ <;> (try simp only) <;> omega

/-- `bitstream_add_bits64` keeps the writer inside its buffer. -/
theorem add64_inv (bs : BitstreamWriter) (cap v n : Nat) (h : bsInv bs cap) :
    bsInv (bitstream_add_bits64 bs v n) cap := by
  unfold bitstream_add_bits64
  split_ifs
  · exact add32_inv _ _ _ _ h
  · exact add32_inv _ _ _ _ (add32_inv _ _ _ _ h)

/-- A fold of 32-bit writes keeps the writer inside its buffer. -/
theorem fold32_inv (l : List (Nat × Nat)) (bs : BitstreamWriter) (cap : Nat)
    (h : bsInv bs cap) :
    bsInv (l.foldl (fun b w => bitstream_add_bits32 b w.1 w.2) bs) cap := by
  induction l generalizing bs with
  | nil => exact h
  | cons w rest ih => exact ih _ (add32_inv _ _ _ _ h)

/-- A fold of 64-bit writes keeps the writer inside its buffer. -/
theorem fold64_inv (l : List (Nat × Nat)) (bs : BitstreamWriter) (cap : Nat)
    (h : bsInv bs cap) :
    bsInv (l.foldl (fun b w => bitstream_add_bits64 b w.1 w.2) bs) cap := by
  induction l generalizing bs with
  | nil => exact h
  | cons w rest ih => exact ih _ (add64_inv _ _ _ _ h)

/-- `bitstream_flush` keeps the writer inside its buffer. -/
theorem flush_inv (bs : BitstreamWriter) (cap : Nat) (h : bsInv bs cap) :
    bsInv (bitstream_flush bs).2 cap := by
  obtain ⟨hp, hc⟩ := h
  unfold bitstream_flush
  split_ifs
  · exact ⟨hp, hc⟩
  · rcases hl : flushLoop bs.mem bs.capacity bs.pos
        ((bs.cache <<< bs.bit_cap) % 18446744073709551616) ((64 - bs.bit_cap + 7) / 8)
        with _ | m <;> simp only [hl] <;> exact ⟨hp, hc⟩

/-- `cmp_hdr_serialize` keeps the writer inside its buffer. -/
theorem serialize_inv (bs : BitstreamWriter) (hdr : CmpHdr) (cap : Nat)
    (h : bsInv bs cap) : bsInv (cmp_hdr_serialize bs hdr).2 cap := by
  unfold cmp_hdr_serialize
  simp only []
  split_ifs <;>
    first
      | exact h
      | exact flush_inv _ _ (fold64_inv _ _ _ h)

/-- `cmp_encoder_encode_s16` keeps the writer inside its buffer. -/
theorem encode_inv (enc : CmpEncoder) (value : Int) (bs : BitstreamWriter)
    (cap : Nat) (h : bsInv bs cap) :
    bsInv (cmp_encoder_encode_s16 enc value bs).2 cap := by
  unfold cmp_encoder_encode_s16
  split_ifs
  · exact fold32_inv _ _ _ h
  · exact h

/-- The sample loop keeps the writer inside its buffer. -/
theorem compressSamples_inv (method : PreprocessingMethod) (enc : CmpEncoder)
    (mn : Bool) (sq mr : Nat) (src : List Nat) (count i : Nat)
    (bs : BitstreamWriter) (work : List Nat) (cap : Nat) (h : bsInv bs cap) :
    bsInv (compressSamples method enc mn sq mr src i bs work count).2.1 cap := by
  induction count generalizing i bs work with
  | zero => exact h
  | succ k ih =>
      unfold compressSamples
      simp only []
      split_ifs <;>
        first
          | exact encode_inv _ _ _ _ h
          | exact ih _ _ _ (encode_inv _ _ _ _ h)

/-- When `flushLoop` succeeds, all `n` pending bytes fitted before the
capacity. -/
theorem flushLoop_some_le (n : Nat) (mem : List Nat) (cap pos tmp : Nat)
    (m : List Nat) (hl : flushLoop mem cap pos tmp n = some m) (hpos : pos ≤ cap) :
    pos + n ≤ cap := by
  induction n generalizing mem pos tmp with
  | zero => omega
  | succ k ih =>
      unfold flushLoop at hl
      by_cases hp : pos < cap
      · rw [if_pos hp] at hl
        have := ih _ (pos + 1) _ hl (by omega)
        omega
      · rw [if_neg hp] at hl
        cases hl

/-- A successful `bitstream_flush` certifies that the total byte count
(`bitstream_size`) fits the capacity. -/
theorem bitstream_flush_success (bs : BitstreamWriter) (cap : Nat) (h : bsInv bs cap)
    (hf : cmp_is_error_int (bitstream_flush bs).1 = false) :
    bitstream_size bs ≤ cap := by
  obtain ⟨hp, hc⟩ := h
  by_cases he : cmp_is_error_int (bitstream_error bs) = true
  · rw [show (bitstream_flush bs).1 = bitstream_error bs by
        simp only [bitstream_flush, if_pos he]] at hf
    rw [he] at hf
    cases hf
  · rcases hl : flushLoop bs.mem bs.capacity bs.pos
        ((bs.cache <<< bs.bit_cap) % 18446744073709551616) ((64 - bs.bit_cap + 7) / 8)
        with _ | m
    · rw [show (bitstream_flush bs).1 = errDST_TOO_SMALL by
          simp only [bitstream_flush, if_neg he, hl]] at hf
      exact absurd hf (by decide)
    · have := flushLoop_some_le ((64 - bs.bit_cap + 7) / 8) bs.mem bs.capacity bs.pos
        ((bs.cache <<< bs.bit_cap) % 18446744073709551616) m hl (by omega)
      rw [show bitstream_size bs = bs.pos + (64 - bs.bit_cap + 7) / 8 by
          simp only [bitstream_size, if_neg he]]
      omega

/-- A successful `bitstream_rewind` certifies the same byte-count bound. -/
theorem bitstream_rewind_success (bs : BitstreamWriter) (cap : Nat) (h : bsInv bs cap)
    (hs : cmp_is_error_int (bitstream_rewind bs).1 = false) :
    bitstream_size bs ≤ cap := by
  apply bitstream_flush_success bs cap h
  by_cases hf : cmp_is_error_int (bitstream_flush bs).1 = true
  · rw [show (bitstream_rewind bs).1 = (bitstream_flush bs).1 by
        simp only [bitstream_rewind, if_pos hf]] at hs
    rw [hf] at hs
    cases hs
  · exact Bool.not_eq_true _ ▸ hf

/-- An error result never passes the sticky-error test. -/
theorem errResult_contra (x : Nat) (c : CmpContext)
    (hx : cmp_is_error_int x = true)
    (h : cmp_is_error_int (errResult x c).ret = false) : False := by
  rw [show (errResult x c).ret = x from rfl] at h
  rw [hx] at h
  cases h

/-- A successful compression pass returns a size within the destination
capacity and reports the selected parameters, the pass sequence number and
the context identifier in the emitted header; the context sequence number
advances by one modulo 256. -/
theorem compressPass_success_shape (ctx : CmpContext)
    (pp et ep eo dst_capacity : Nat) (src : List Nat) (src_size : Nat)
    (h : cmp_is_error_int (compressPass ctx pp et ep eo dst_capacity src src_size).ret = false) :
    (compressPass ctx pp et ep eo dst_capacity src src_size).ret ≤ dst_capacity ∧
    (compressPass ctx pp et ep eo dst_capacity src src_size).hdr.preprocessing = pp ∧
    (compressPass ctx pp et ep eo dst_capacity src src_size).hdr.encoder_type = et ∧
    (compressPass ctx pp et ep eo dst_capacity src src_size).hdr.encoder_param = ep ∧
    (compressPass ctx pp et ep eo dst_capacity src src_size).hdr.sequence_number
      = ctx.sequence_number ∧
    (compressPass ctx pp et ep eo dst_capacity src src_size).hdr.identifier
      = ctx.identifier ∧
    (compressPass ctx pp et ep eo dst_capacity src src_size).ctx.sequence_number
      = (ctx.sequence_number + 1) % 256 := by
  revert h
  unfold compressPass
  simp only []
  rcases hm : preprocessing_get_method pp with _ | method <;> simp only [hm] <;>
    split_ifs with h1 h2 h3 h4 h5 h6 h7 h8 <;> intro h <;>
    first
      | exact (errResult_contra _ _ ‹cmp_is_error_int _ = true› h).elim
      | exact (errResult_contra _ _ (by decide) h).elim
      | refine ⟨?_, rfl, rfl, rfl, rfl, rfl, rfl⟩
  exact bitstream_rewind_success _ dst_capacity
    (compressSamples_inv _ _ _ _ _ _ _ _ _ _ _
      (serialize_inv _ _ _ ⟨Nat.zero_le _, rfl⟩))
    (Bool.not_eq_true _ ▸ h7)

/-- C1: when `cmp_compress_u16` succeeds with a destination capacity of
`cmp_compress_bound src_size` bytes, the returned compressed size is at most
`cmp_compress_bound src_size` — the bound holds for any parameter set the
pass accepts, Golomb escape cases included. -/
theorem compress_bound_respected (ctx : CmpContext) (src : List Nat)
    (src_size ts : Nat)
    (h : cmp_is_error_int
        (cmp_compress_u16 ctx (cmp_compress_bound src_size) src src_size ts).ret = false) :
    (cmp_compress_u16 ctx (cmp_compress_bound src_size) src src_size ts).ret
      ≤ cmp_compress_bound src_size := by
  revert h
  unfold cmp_compress_u16
  simp only []
  split_ifs with hsel hr hg <;> intro h
  · exact (errResult_contra _ _ hr h).elim
  · exact (compressPass_success_shape _ _ _ _ _ _ _ _ h).1
  · exact (errResult_contra _ _ (by decide) h).elim
  · exact (compressPass_success_shape _ _ _ _ _ _ _ _ h).1

/-- Witness for C1 at a concrete input: compressing two samples into a
buffer of `cmp_compress_bound 4` bytes succeeds and stays within the bound. -/
theorem compress_bound_respected_witness :
    cmp_is_error_int
      (cmp_compress_u16 zeroCtx (cmp_compress_bound 4) [1, 515] 4 0).ret = false ∧
    (cmp_compress_u16 zeroCtx (cmp_compress_bound 4) [1, 515] 4 0).ret
      ≤ cmp_compress_bound 4 :=
  ⟨by decide, compress_bound_respected zeroCtx [1, 515] 4 0 (by decide)⟩

/-- C8: pass-class selection.  A `compress` call whose context has
`sequence_number = 0` or `sequence_number > secondary_iterations` is a
primary pass: the emitted header reports the primary parameters with
`sequence_number = 0` and an identifier refreshed from the timestamp
provider, and the context continues at sequence number 1; a call with
`1 ≤ sequence_number ≤ secondary_iterations` is a secondary pass reporting
the secondary parameters and the current sequence number. -/
theorem pass_class_selection (ctx : CmpContext) (dst_capacity : Nat)
    (src : List Nat) (src_size ts : Nat) (hts : ts < 281474976710656)
    (h : cmp_is_error_int
        (cmp_compress_u16 ctx dst_capacity src src_size ts).ret = false) :
    (ctx.sequence_number = 0 ∨ ctx.params.secondary_iterations < ctx.sequence_number →
      (cmp_compress_u16 ctx dst_capacity src src_size ts).hdr.preprocessing
          = ctx.params.primary_preprocessing ∧
      (cmp_compress_u16 ctx dst_capacity src src_size ts).hdr.encoder_type
          = ctx.params.primary_encoder_type ∧
      (cmp_compress_u16 ctx dst_capacity src src_size ts).hdr.encoder_param
          = ctx.params.primary_encoder_param ∧
      (cmp_compress_u16 ctx dst_capacity src src_size ts).hdr.sequence_number = 0 ∧
      (cmp_compress_u16 ctx dst_capacity src src_size ts).hdr.identifier = ts ∧
      (cmp_compress_u16 ctx dst_capacity src src_size ts).ctx.sequence_number = 1) ∧
    (¬(ctx.sequence_number = 0 ∨ ctx.params.secondary_iterations < ctx.sequence_number) →
      (cmp_compress_u16 ctx dst_capacity src src_size ts).hdr.preprocessing
          = ctx.params.secondary_preprocessing ∧
      (cmp_compress_u16 ctx dst_capacity src src_size ts).hdr.encoder_type
          = ctx.params.secondary_encoder_type ∧
      (cmp_compress_u16 ctx dst_capacity src src_size ts).hdr.encoder_param
          = ctx.params.secondary_encoder_param ∧
      (cmp_compress_u16 ctx dst_capacity src src_size ts).hdr.sequence_number
          = ctx.sequence_number ∧
      (cmp_compress_u16 ctx dst_capacity src src_size ts).ctx.sequence_number
          = (ctx.sequence_number + 1) % 256) := by
  have hreset : cmp_reset ctx ts =
      (errNO_ERROR, { ctx with sequence_number := 0, identifier := ts, model_size := 0 }) := by
    unfold cmp_reset
    rw [if_neg (by norm_num; omega)]
  by_cases hsel : ctx.sequence_number = 0 ∨ ctx.params.secondary_iterations < ctx.sequence_number
  · refine ⟨fun _ => ?_, fun hns => absurd hsel hns⟩
    have hru : cmp_compress_u16 ctx dst_capacity src src_size ts =
        compressPass { ctx with sequence_number := 0, identifier := ts, model_size := src_size }
          ctx.params.primary_preprocessing ctx.params.primary_encoder_type
          ctx.params.primary_encoder_param ctx.params.primary_encoder_outlier
          dst_capacity src src_size := by
      unfold cmp_compress_u16
      rw [if_pos hsel]
      simp only [hreset]
      rw [if_neg (by decide)]
    rw [hru] at h ⊢
    have S := compressPass_success_shape _ _ _ _ _ _ _ _ h
    refine ⟨S.2.1, S.2.2.1, S.2.2.2.1, S.2.2.2.2.1, S.2.2.2.2.2.1, ?_⟩
    rw [S.2.2.2.2.2.2]
    norm_num
  · refine ⟨fun hp => absurd hp hsel, fun _ => ?_⟩
    by_cases hg : ctx.params.secondary_preprocessing = CMP_PREPROCESS_MODEL ∧
        src_size ≠ ctx.model_size
    · have hbad : cmp_compress_u16 ctx dst_capacity src src_size ts =
          errResult errSRC_SIZE_MISMATCH ctx := by
        unfold cmp_compress_u16
        rw [if_neg hsel, if_pos hg]
      rw [hbad] at h
      exact (errResult_contra _ _ (by decide) h).elim
    · have hru : cmp_compress_u16 ctx dst_capacity src src_size ts =
          compressPass ctx ctx.params.secondary_preprocessing
            ctx.params.secondary_encoder_type ctx.params.secondary_encoder_param
            ctx.params.secondary_encoder_outlier dst_capacity src src_size := by
        unfold cmp_compress_u16
        rw [if_neg hsel, if_neg hg]
      rw [hru] at h ⊢
      have S := compressPass_success_shape _ _ _ _ _ _ _ _ h
      exact ⟨S.2.1, S.2.2.1, S.2.2.2.1, S.2.2.2.2.1, S.2.2.2.2.2.2⟩

/-- Witness for C8 at a concrete input: the first call on a fresh context is
a primary pass with header sequence number 0, the provided timestamp as
identifier, and the context continuing at sequence number 1. -/
theorem pass_class_selection_witness :
    cmp_is_error_int (cmp_compress_u16 zeroCtx 64 [2, 2] 4 5).ret = false ∧
    (cmp_compress_u16 zeroCtx 64 [2, 2] 4 5).hdr.sequence_number = 0 ∧
    (cmp_compress_u16 zeroCtx 64 [2, 2] 4 5).hdr.identifier = 5 ∧
    (cmp_compress_u16 zeroCtx 64 [2, 2] 4 5).ctx.sequence_number = 1 := by
  have S := (pass_class_selection zeroCtx 64 [2, 2] 4 5 (by decide) (by decide)).1
    (Or.inl rfl)
  exact ⟨by decide, S.2.2.2.1, S.2.2.2.2.1, S.2.2.2.2.2⟩

/-- C5 (amended): serializing a frame header into a fresh writer emits
exactly `CMP_HDR_SIZE` = 16 bytes of base header — not 15 — plus exactly
`CMP_EXT_HDR_SIZE` = 6 additional bytes — not 5 — if and only if the
preprocessing is not NONE or the encoder type is not UNCOMPRESSED. -/
theorem header_serialized_byte_counts (mem : List Nat) (cap : Nat) (hdr : CmpHdr)
    (hcap : 22 ≤ cap)
    (hvf : hdr.version_flag ≤ 1) (hvi : hdr.version_id < 32768)
    (hcs : hdr.compressed_size ≤ 16777215) (hos : hdr.original_size ≤ 16777215)
    (hid : hdr.identifier < 281474976710656) (hsq : hdr.sequence_number < 256)
    (hpp : hdr.preprocessing < 16) (hce : hdr.checksum_enabled ≤ 1)
    (het : hdr.encoder_type < 8) (hmr : hdr.model_rate < 256)
    (hep : hdr.encoder_param < 65536) (heo : hdr.encoder_outlier < 16777216) :
    (cmp_hdr_serialize (bitstream_writer_init mem cap) hdr).1 =
      CMP_HDR_SIZE +
        (if hdr.preprocessing ≠ 0 ∨ hdr.encoder_type ≠ 0 then CMP_EXT_HDR_SIZE else 0) ∧
    CMP_HDR_SIZE = 16 ∧ CMP_EXT_HDR_SIZE = 6 := by
  refine ⟨?_, by norm_num [CMP_HDR_SIZE], by norm_num [CMP_EXT_HDR_SIZE]⟩
  rw [cmp_hdr_serialize_fresh_count mem cap hdr hcap hvf hvi hcs hos hid hsq hpp hce
      het hmr hep heo]
  split_ifs <;> norm_num [CMP_HDR_SIZE, CMP_EXT_HDR_SIZE]

/-- Witness for C5 at a concrete header (DIFF preprocessing, GOLOMB_ZERO
encoder): 16 + 6 bytes. -/
theorem header_serialized_byte_counts_witness :
    (cmp_hdr_serialize (bitstream_writer_init (List.replicate 64 0) 64)
        ⟨1, 400, 0, 4, 5, 0, 2, 0, 1, 0, 1, 16⟩).1 =
      CMP_HDR_SIZE + (if (2 : Nat) ≠ 0 ∨ (1 : Nat) ≠ 0 then CMP_EXT_HDR_SIZE else 0) ∧
    CMP_HDR_SIZE = 16 ∧ CMP_EXT_HDR_SIZE = 6 :=
  header_serialized_byte_counts (List.replicate 64 0) 64
    ⟨1, 400, 0, 4, 5, 0, 2, 0, 1, 0, 1, 16⟩ (by decide) (by decide) (by decide)
    (by decide) (by decide) (by decide) (by decide) (by decide) (by decide)
    (by decide) (by decide) (by decide) (by decide)

/-- Counterexample to C5 as stated: the serialized base header measures 16
bytes, not 15, and the extended header adds 6 bytes, not 5. -/
theorem header_byte_counts_not_15_plus_5 :
    (cmp_hdr_serialize (bitstream_writer_init (List.replicate 64 0) 64) zeroHdr).1 = 16 ∧
    (cmp_hdr_serialize (bitstream_writer_init (List.replicate 64 0) 64)
        ⟨0, 0, 0, 0, 0, 0, 1, 0, 0, 0, 0, 0⟩).1 = 22 ∧
    (16 : Nat) ≠ 15 ∧ (22 : Nat) - 16 ≠ 5 :=
  ⟨by decide, by decide, by decide, by decide⟩
